import Mathlib

/-!
Verification of the retry / re-authentication control logic of
`wqb/auto_auth_session.py` (class `AutoAuthSession`).

The Python class is shallowly embedded as pure Lean functions.  The
underlying HTTP transport (`requests.Session.request`, i.e. the
`super().request` calls in the source) is modelled as an oracle
`World : ℕ → Response` together with a call counter: the n-th transport
invocation made anywhere during a call receives response `world n`.
Sleeping and logging are modelled as events recorded in a trace, in the
order the source performs them.  The session object's stored fields are
the `SessionState` structure; every call threads the state through and
returns it, so that frame properties can be stated.  Delays are
rationals (the source uses Python floats only as plain magnitudes:
`max`, comparison with zero, and `time.sleep`).
-/

namespace Wqb

/-- Modelled from the spec: the module-level constant `RETRY_AFTER`
(imported from the package `__init__`, which is not part of the sources)
names the rate-limit hint header, `Retry-After`. -/
def RETRY_AFTER : String := "Retry-After"

/-- The part of a `requests.Response` that the component reads:
status code, headers, reason, final URL, elapsed time and body text.
A fresh `Response()` (before any transport call) has `none` / empty
fields, hence the `Option` types. -/
structure Response where
  status_code : Option Int
  headers : List (String × String)
  reason : Option String
  url : Option String
  elapsed : ℚ
  text : String
deriving DecidableEq

/-- The fresh `Response()` object the source creates before each loop. -/
def defaultResponse : Response :=
  { status_code := none, headers := [], reason := none, url := none,
    elapsed := 0, text := "" }

/-- Modelled from the spec: `requests` response headers are a
case-insensitive mapping (the `CaseInsensitiveDict` type lives outside
the sources); `resp.headers.get(k)` looks a key up ignoring case. -/
def headersGet (hs : List (String × String)) (k : String) : Option String :=
  (hs.find? (fun p => p.1.toLower == k.toLower)).map Prod.snd

/-- Keyword transport options: a key/value mapping. -/
abbrev Kwargs := List (String × String)

/-- Lookup in a keyword mapping (first binding of the key wins,
mirroring the unique-key invariant of a Python dict). -/
def Kwargs.get (kw : Kwargs) (k : String) : Option String :=
  (kw.find? (fun p => p.1 == k)).map Prod.snd

/-- The Python dict merge `{**a, **b}`: every key of `b` overrides the
same key of `a`; keys only in `a` keep their value. -/
def dictMerge (a b : Kwargs) : Kwargs :=
  a.filter (fun p => (Kwargs.get b p.1).isNone) ++ b

/-- Accumulate the numeric value of a digit string; `none` on the first
non-digit character. -/
def digitsToNat : List Char → ℕ → Option ℕ
  | [], acc => some acc
  | c :: cs, acc =>
    if c.isDigit then digitsToNat cs (acc * 10 + (c.toNat - 48)) else none

/-- The value of a (pre-checked) digit string, least significant last. -/
def digitsVal (cs : List Char) : ℚ :=
  cs.foldl (fun acc c => acc * 10 + ((c.toNat - 48 : ℕ) : ℚ)) 0

/-- In a Python numeric literal every underscore must sit between two
digits: "1_000" is legal; "_1", "1_", "1__0", "1_.5", "1_e5" raise
ValueError. -/
def okUnderscores : List Char → Bool
  | [] => true
  | '_' :: _ => false
  | c :: '_' :: d :: rest =>
    c.isDigit && d.isDigit && okUnderscores (d :: rest)
  | _ :: '_' :: [] => false
  | _ :: rest => okUnderscores rest

/-- The numeric value of an ASCII digit string, as a natural number. -/
def digitsNat (cs : List Char) : ℕ :=
  cs.foldl (fun a c => a * 10 + (c.toNat - 48)) 0

/-- The exponent part of a Python float literal (after the e/E,
underscores already removed): an optional sign, then a nonempty digit
string. -/
def pyExp (cs : List Char) : Option Int :=
  let sb : Int × List Char :=
    match cs with
    | '-' :: r => (-1, r)
    | '+' :: r => (1, r)
    | r => (1, r)
  if sb.2.isEmpty || !sb.2.all Char.isDigit then none
  else some (sb.1 * (digitsNat sb.2 : Int))

/-- A finite Python float literal with the sign and the underscores
already removed: digits with an optional fraction ("5", "5.", ".5",
"1.25"), then an optional e/E exponent. -/
def pyFinite (cs : List Char) : Option ℚ :=
  let mant := cs.takeWhile (fun c => c != 'e' && c != 'E')
  let rest := cs.drop mant.length
  let ip := mant.takeWhile Char.isDigit
  let r2 := mant.drop ip.length
  let mv : Option ℚ :=
    match r2 with
    | [] => if ip.isEmpty then none else some (digitsVal ip)
    | '.' :: frac =>
      if frac.all Char.isDigit && !(ip.isEmpty && frac.isEmpty) then
        some (digitsVal ip + digitsVal frac / (10 : ℚ) ^ frac.length)
      else none
    | _ => none
  match mv, rest with
  | none, _ => none
  | some v, [] => some v
  | some v, _ :: ex =>
    match pyExp ex with
    | none => none
    | some e => some (v * (10 : ℚ) ^ e)

/-- Does Python float(s) return an infinity: optional surrounding
whitespace, optional sign, then "inf" or "infinity" in any case?
CPython's time.sleep on an infinite value raises OverflowError, which
the loops' `except ValueError` does not catch — see `retrySleepDur`. -/
def pyInf (s : String) : Bool :=
  let t := s.trim.toList
  let body : List Char :=
    match t with
    | '-' :: r => r
    | '+' :: r => r
    | r => r
  let low := body.map Char.toLower
  low = "inf".toList || low = "infinity".toList

/-- Does Python float(s) return a NaN: optional surrounding whitespace,
optional sign, then "nan" in any case?  time.sleep on a NaN raises
ValueError, which the loops catch. -/
def pyNan (s : String) : Bool :=
  let t := s.trim.toList
  let body : List Char :=
    match t with
    | '-' :: r => r
    | '+' :: r => r
    | r => r
  body.map Char.toLower = "nan".toList

/-- Model of the Python builtin `float(s)` on ASCII input, as a finite
value: optional surrounding whitespace, optional sign, then a finite
float literal — digits with single underscores strictly between digits,
an optional fraction, and an optional e/E exponent with its own
optional sign ("1e3", "2E1", "1_5", "1_000.2_5", "+.5e-1" all parse).
Returns `none` both for the strings float rejects with ValueError and
for the inf/infinity/nan spellings, which float does accept but which
are not finite values; `pyInf` and `pyNan` recognise those spellings,
so "float raises ValueError" is exactly `floatValueError` below.
(Non-ASCII digits and non-ASCII whitespace are outside the modelled
fragment.) -/
def pythonFloat (s : String) : Option ℚ :=
  let t := s.trim.toList
  let sb : ℚ × List Char :=
    match t with
    | '-' :: r => (-1, r)
    | '+' :: r => (1, r)
    | r => (1, r)
  let low := sb.2.map Char.toLower
  if low = "inf".toList || low = "infinity".toList ||
      low = "nan".toList then none
  else if !okUnderscores sb.2 then none
  else (pyFinite (sb.2.filter (fun c => c != '_'))).map
    (fun v => sb.1 * v)

/-- Python float(s) raises ValueError exactly when s is neither a
finite float literal nor an inf/infinity/nan spelling. -/
def floatValueError (s : String) : Bool :=
  (pythonFloat s).isNone && !(pyInf s) && !(pyNan s)

/-- The duration actually slept by the 429 branch of both loops:

    try:
        if retry_after is not None: time.sleep(float(retry_after))
        else: time.sleep(delay_unexpected)
    except ValueError:
        time.sleep(delay_unexpected)

A missing header sleeps the fixed delay.  A value on which `float`
raises `ValueError` sleeps the fixed delay (the exception is caught).
A parseable finite negative value makes `time.sleep` itself raise
`ValueError` (sleep length must be non-negative), likewise caught:
fixed delay.  A nan spelling parses, but `time.sleep` on a NaN raises
`ValueError`, again caught: fixed delay — `pythonFloat` maps nan to
`none`, so that case lands in the same fallback branch here, matching
the program.  An inf/infinity spelling parses too, but CPython's
`time.sleep` then raises `OverflowError`, which `except ValueError`
does not catch: the program aborts with an uncaught exception.  That
aborting execution is not represented by this total model (which maps
it to the fallback as well); the fallback lemma and theorem therefore
take `floatValueError` as their hypothesis, excluding the inf
spellings. -/
def retrySleepDur (retry_after : Option String) (delay : ℚ) : ℚ :=
  match retry_after with
  | none => delay
  | some s =>
    match pythonFloat s with
    | none => delay
    | some v => if v < 0 then delay else v

/-- The fields stored on `self` by `AutoAuthSession.__init__`.
The logger handle is abstract. -/
structure SessionState where
  method : String
  url : String
  kwargs : Kwargs
  auth_expected : Response → Bool
  auth_max_tries : Int
  auth_delay_unexpected : ℚ
  expected : Response → Bool
  max_tries : Int
  delay_unexpected : ℚ
  logger : ℕ

/-- `AutoAuthSession.__init__`: stores the defaults.  Note that of the
four retry-policy numbers only the ordinary-request pair is clamped
here (`max_tries = max(1, max_tries)`, `delay_unexpected =
max(0.0, delay_unexpected)`); the authentication pair is stored exactly
as given. -/
def AutoAuthSession.init (method url : String)
    (auth_expected : Response → Bool) (auth_max_tries : Int)
    (auth_delay_unexpected : ℚ) (expected : Response → Bool)
    (max_tries : Int) (delay_unexpected : ℚ) (logger : ℕ)
    (kwargs : Kwargs) : SessionState :=
  { method := method, url := url, kwargs := kwargs,
    auth_expected := auth_expected, auth_max_tries := auth_max_tries,
    auth_delay_unexpected := auth_delay_unexpected, expected := expected,
    max_tries := max 1 max_tries,
    delay_unexpected := max 0 delay_unexpected, logger := logger }

/-- The data interpolated into the warning emitted when a retry loop
runs out of tries: the call signature, the attempt counter, and the
final response's status code, reason, URL, elapsed time, headers and
body text. -/
structure WarnInfo where
  method : String
  url : String
  args : List String
  kwargs : Kwargs
  tries : ℕ
  status_code : Option Int
  reason : Option String
  resp_url : Option String
  elapsed : ℚ
  headers : List (String × String)
  text : String
deriving DecidableEq

/-- Build the warning payload from the loop locals and the last
response, exactly the fields the source's f-strings read. -/
def mkWarnInfo (method url : String) (args : List String) (kwargs : Kwargs)
    (tries : ℕ) (resp : Response) : WarnInfo :=
  { method := method, url := url, args := args, kwargs := kwargs,
    tries := tries, status_code := resp.status_code, reason := resp.reason,
    resp_url := resp.url, elapsed := resp.elapsed,
    headers := resp.headers, text := resp.text }

/-- Observable actions of a call, in order: a transport invocation
(`super().request`), a sleep, a full nested authentication cycle (with
the events of that cycle), a warning log, an info log. -/
inductive Event where
  | transport (method url : String) (args : List String) (kwargs : Kwargs)
      (resp : Response)
  | sleep (duration : ℚ)
  | auth (nested : List Event)
  | warn (w : WarnInfo)
  | info (tries : ℕ) (tag : String)

/-- One iteration of a retry loop: the transport counter when it
started, the response it obtained, whether the success predicate
accepted it, and the events it produced (in order). -/
structure Attempt where
  counterBefore : ℕ
  resp : Response
  accepted : Bool
  block : List Event

def defaultAttempt : Attempt :=
  { counterBefore := 0, resp := defaultResponse, accepted := false,
    block := [] }

/-- What a retry loop returns: the last response, the final value of the
`tries` counter, whether it exited by `break`, the list of attempts, the
transport counter afterwards, and the session state afterwards. -/
structure LoopRes where
  resp : Response
  tries : ℕ
  accepted : Bool
  attempts : List Attempt
  counter : ℕ
  state : SessionState

/-- What a full method call returns: the response, the final `tries`,
acceptance, attempts, the flat event trace, the transport counter and
the session state afterwards. -/
structure CallRes where
  resp : Response
  tries : ℕ
  accepted : Bool
  attempts : List Attempt
  trace : List Event
  counter : ℕ
  state : SessionState

/-- Per-call resolution of `max_tries`: the session default when the
argument is `None`, then `max_tries = max(1, max_tries)`; the loop runs
that many iterations. -/
def resolvedMaxTries (dflt : Int) (o : Option Int) : ℕ :=
  (max 1 (o.getD dflt)).toNat

/-- Per-call resolution of `delay_unexpected`: the session default when
the argument is `None`, then `delay_unexpected = max(0.0,
delay_unexpected)`. -/
def resolvedDelay (dflt : ℚ) (o : Option ℚ) : ℚ :=
  max 0 (o.getD dflt)

/-- The duration slept by `auth_request` after a rejected response:
the `Retry-After`-aware duration on a 429, the fixed delay otherwise. -/
def authSleepDur (resp : Response) (delay : ℚ) : ℚ :=
  if resp.status_code = some 429 then
    retrySleepDur (headersGet resp.headers RETRY_AFTER) delay
  else delay

/-- The `for tries in range(1, 1 + max_tries)` loop of
`AutoAuthSession.auth_request`, by recursion on the remaining
iterations (`fuel`), carrying the next value of `tries` and the
transport counter.  Each iteration issues one transport call; on
acceptance it breaks, otherwise it sleeps (429 honours `Retry-After`)
and continues.  The session state is untouched (the loop body reads no
`self` field). -/
def authLoop (world : ℕ → Response) (expected : Response → Bool)
    (delay : ℚ) (method url : String) (args : List String)
    (kwargs : Kwargs) (S : SessionState) :
    ℕ → ℕ → ℕ → LoopRes
  | 0, _, c =>
    { resp := defaultResponse, tries := 0, accepted := false,
      attempts := [], counter := c, state := S }
  | fuel + 1, tryNo, c =>
    let resp := world c
    if expected resp then
      { resp := resp, tries := tryNo, accepted := true,
        attempts := [⟨c, resp, true,
          [Event.transport method url args kwargs resp]⟩],
        counter := c + 1, state := S }
    else
      let att : Attempt :=
        ⟨c, resp, false,
         [Event.transport method url args kwargs resp,
          Event.sleep (authSleepDur resp delay)]⟩
      if fuel = 0 then
        { resp := resp, tries := tryNo, accepted := false,
          attempts := [att], counter := c + 1, state := S }
      else
        let r := authLoop world expected delay method url args kwargs S
          fuel (tryNo + 1) (c + 1)
        { resp := r.resp, tries := r.tries, accepted := r.accepted,
          attempts := att :: r.attempts, counter := r.counter,
          state := r.state }

/-- `AutoAuthSession.auth_request`: resolve omitted arguments from the
authentication session defaults, merge the keyword options
(`kwargs = {**self.kwargs, **kwargs}`, per-call keys win), re-clamp
`max_tries` and `delay_unexpected`, run the loop; on exhaustion
(`for`/`else`) emit one warning; if `log` was supplied emit one info
message with the attempt count. -/
def AutoAuthSession.auth_request (S : SessionState)
    (world : ℕ → Response) (c : ℕ) (method url : Option String)
    (args : List String) (expected : Option (Response → Bool))
    (max_tries : Option Int) (delay_unexpected : Option ℚ)
    (log : Option String) (kwargs : Kwargs) : CallRes :=
  let m := method.getD S.method
  let u := url.getD S.url
  let kw := dictMerge S.kwargs kwargs
  let exp := expected.getD S.auth_expected
  let mt := resolvedMaxTries S.auth_max_tries max_tries
  let d := resolvedDelay S.auth_delay_unexpected delay_unexpected
  let r := authLoop world exp d m u args kw S mt 1 c
  let warnEvs : List Event :=
    if r.accepted then []
    else [Event.warn (mkWarnInfo m u args kw r.tries r.resp)]
  let infoEvs : List Event :=
    match log with
    | none => []
    | some tag => [Event.info r.tries tag]
  { resp := r.resp, tries := r.tries, accepted := r.accepted,
    attempts := r.attempts,
    trace := (r.attempts.map Attempt.block).flatten ++ warnEvs ++ infoEvs,
    counter := r.counter, state := r.state }

/-- One iteration of the `request` loop: issue the transport call; if
rejected, a 401 runs a full nested `self.auth_request()` with no
overrides then sleeps the fixed delay, a 429 sleeps the
`Retry-After`-aware duration, anything else sleeps the fixed delay.
Returns the attempt record, the transport counter afterwards and the
session state afterwards. -/
def requestStep (world : ℕ → Response) (expected : Response → Bool)
    (delay : ℚ) (method url : String) (args : List String)
    (kwargs : Kwargs) (S : SessionState) (c : ℕ) :
    Attempt × ℕ × SessionState :=
  let resp := world c
  if expected resp then
    (⟨c, resp, true, [Event.transport method url args kwargs resp]⟩,
     c + 1, S)
  else if resp.status_code = some 401 then
    let a := AutoAuthSession.auth_request S world (c + 1)
      none none [] none none none none []
    (⟨c, resp, false,
      [Event.transport method url args kwargs resp,
       Event.auth a.trace, Event.sleep delay]⟩,
     a.counter, a.state)
  else if resp.status_code = some 429 then
    (⟨c, resp, false,
      [Event.transport method url args kwargs resp,
       Event.sleep (retrySleepDur (headersGet resp.headers RETRY_AFTER)
         delay)]⟩,
     c + 1, S)
  else
    (⟨c, resp, false,
      [Event.transport method url args kwargs resp, Event.sleep delay]⟩,
     c + 1, S)

/-- The `for tries in range(1, 1 + max_tries)` loop of
`AutoAuthSession.request`, threading the transport counter and the
session state through each iteration (a 401 iteration runs a nested
authentication call, which could in principle change both). -/
def requestLoop (world : ℕ → Response) (expected : Response → Bool)
    (delay : ℚ) (method url : String) (args : List String)
    (kwargs : Kwargs) :
    ℕ → ℕ → ℕ → SessionState → LoopRes
  | 0, _, c, S =>
    { resp := defaultResponse, tries := 0, accepted := false,
      attempts := [], counter := c, state := S }
  | fuel + 1, tryNo, c, S =>
    let st := requestStep world expected delay method url args kwargs S c
    if st.1.accepted then
      { resp := st.1.resp, tries := tryNo, accepted := true,
        attempts := [st.1], counter := st.2.1, state := st.2.2 }
    else if fuel = 0 then
      { resp := st.1.resp, tries := tryNo, accepted := false,
        attempts := [st.1], counter := st.2.1, state := st.2.2 }
    else
      let r := requestLoop world expected delay method url args kwargs
        fuel (tryNo + 1) st.2.1 st.2.2
      { resp := r.resp, tries := r.tries, accepted := r.accepted,
        attempts := st.1 :: r.attempts, counter := r.counter,
        state := r.state }

/-- `AutoAuthSession.request`: resolve `expected`/`max_tries`/
`delay_unexpected` from the ordinary-request session defaults (method,
url and kwargs are taken as given: no session-level merge), re-clamp,
run the loop; on exhaustion emit one warning; if `log` was supplied
emit one info message with the attempt count. -/
def AutoAuthSession.request (S : SessionState) (world : ℕ → Response)
    (c : ℕ) (method url : String) (args : List String)
    (expected : Option (Response → Bool)) (max_tries : Option Int)
    (delay_unexpected : Option ℚ) (log : Option String)
    (kwargs : Kwargs) : CallRes :=
  let exp := expected.getD S.expected
  let mt := resolvedMaxTries S.max_tries max_tries
  let d := resolvedDelay S.delay_unexpected delay_unexpected
  let r := requestLoop world exp d method url args kwargs mt 1 c S
  let warnEvs : List Event :=
    if r.accepted then []
    else [Event.warn (mkWarnInfo method url args kwargs r.tries r.resp)]
  let infoEvs : List Event :=
    match log with
    | none => []
    | some tag => [Event.info r.tries tag]
  { resp := r.resp, tries := r.tries, accepted := r.accepted,
    attempts := r.attempts,
    trace := (r.attempts.map Attempt.block).flatten ++ warnEvs ++ infoEvs,
    counter := r.counter, state := r.state }

/-- Is the event a transport invocation? -/
def Event.isTransport : Event → Bool
  | Event.transport _ _ _ _ _ => true
  | _ => false

/-- Is the event a sleep? -/
def Event.isSleep : Event → Bool
  | Event.sleep _ => true
  | _ => false

/-- Is the event a warning log? -/
def Event.isWarn : Event → Bool
  | Event.warn _ => true
  | _ => false

/-- Is the event a nested authentication cycle? -/
def Event.isAuth : Event → Bool
  | Event.auth _ => true
  | _ => false

/-- Is the event an info log? -/
def Event.isInfo : Event → Bool
  | Event.info _ _ => true
  | _ => false

/-- Transport invocations at the top level of a trace (not the ones
inside nested authentication cycles). -/
def countTransport (es : List Event) : ℕ := es.countP Event.isTransport

/-- All transport invocations of a trace, the ones inside nested
authentication cycles included. -/
def countTransportAll : List Event → ℕ
  | [] => 0
  | Event.transport _ _ _ _ _ :: es => countTransportAll es + 1
  | Event.auth n :: es => countTransportAll n + countTransportAll es
  | _ :: es => countTransportAll es

/-- Sleeps at the top level of a trace. -/
def countSleep (es : List Event) : ℕ := es.countP Event.isSleep

/-- Warnings at the top level of a trace (a nested authentication
cycle's own exhaustion warning belongs to that cycle). -/
def countWarn (es : List Event) : ℕ := es.countP Event.isWarn

/-- Nested authentication cycles at the top level of a trace. -/
def countAuth (es : List Event) : ℕ := es.countP Event.isAuth

/-- Info messages at the top level of a trace. -/
def countInfo (es : List Event) : ℕ := es.countP Event.isInfo

/-! Concrete sessions, responses and worlds used to exercise the
definitions on closed inputs. -/

/-- A predicate accepting exactly the 200 responses. -/
def isOK : Response → Bool := fun r => r.status_code == some 200

/-- A predicate rejecting everything. -/
def rejectAll : Response → Bool := fun _ => false

/-- A sample 200 response. -/
def rOK : Response :=
  { status_code := some 200, headers := [], reason := some "OK",
    url := some "https://example.com/x", elapsed := 1, text := "ok" }

/-- A sample 500 response. -/
def r500 : Response :=
  { status_code := some 500, headers := [], reason := some "ISE",
    url := some "https://example.com/x", elapsed := 1, text := "boom" }

/-- A sample 401 response. -/
def r401 : Response :=
  { status_code := some 401, headers := [], reason := some "Unauthorized",
    url := some "https://example.com/x", elapsed := 1, text := "no" }

/-- A 429 response with a numeric Retry-After header (lowercase key, to
exercise the case-insensitive lookup). -/
def r429five : Response :=
  { status_code := some 429, headers := [("retry-after", "5")],
    reason := some "Too Many Requests",
    url := some "https://example.com/x", elapsed := 1, text := "tm" }

/-- A 429 response with a non-numeric Retry-After header. -/
def r429soon : Response :=
  { status_code := some 429, headers := [("Retry-After", "soon")],
    reason := some "Too Many Requests",
    url := some "https://example.com/x", elapsed := 1, text := "tm" }

/-- A sample session: auth pair (isOK, 2 tries, delay 7), ordinary pair
(isOK, 3 tries, delay 2), one session-level keyword option. -/
def cS : SessionState :=
  AutoAuthSession.init "POST" "https://example.com/auth" isOK 2 7 isOK 3 2 0
    [("a", "1")]

/-- A world answering 500 to everything. -/
def w500 : ℕ → Response := fun _ => r500

/-- A world answering 401 to everything. -/
def w401 : ℕ → Response := fun _ => r401

/-- A world answering 429 with Retry-After 5 to everything. -/
def w429five : ℕ → Response := fun _ => r429five

/-- A world answering 429 with Retry-After "soon" to everything. -/
def w429soon : ℕ → Response := fun _ => r429soon

/-- A world answering 500 twice and then 200. -/
def wOK3 : ℕ → Response := fun n => if n = 2 then rOK else r500

/-- The single attempt produced by a concrete one-try `auth_request`
call against `cS` with per-call kwargs `[("a","2"), ("b","3")]`. -/
def aKw : Attempt :=
  ⟨0, r500, false,
   [Event.transport "POST" "https://example.com/auth" []
      [("a", "2"), ("b", "3")] r500, Event.sleep 7]⟩

/-- The single attempt produced by a concrete one-try `request` call
against `cS` when every response is 401: a transport call, a full
nested authentication cycle, and the fixed-delay sleep. -/
def a401 : Attempt :=
  ⟨0, r401, false,
   [Event.transport "GET" "https://example.com/x" [] [] r401,
    Event.auth (AutoAuthSession.auth_request cS w401 1 none none [] none
      none none none []).trace,
    Event.sleep 2]⟩

/-- The single attempt produced by a concrete one-try `request` call
against `cS` when every response is 429 with `Retry-After: 5`. -/
def a429five : Attempt :=
  ⟨0, r429five, false,
   [Event.transport "GET" "https://example.com/x" [] [] r429five,
    Event.sleep 5]⟩

/-- The single attempt produced by a concrete one-try `request` call
against `cS` when every response is 429 with `Retry-After: soon`. -/
def a429soon : Attempt :=
  ⟨0, r429soon, false,
   [Event.transport "GET" "https://example.com/x" [] [] r429soon,
    Event.sleep 2]⟩

/-- The trace of the nested authentication cycle run by a 401-rejected
`request` attempt against `cS` (two auth tries, both 401, exhausted). -/
def authTrace401 : List Event :=
  [Event.transport "POST" "https://example.com/auth" [] [("a", "1")]
     r401,
   Event.sleep 7,
   Event.transport "POST" "https://example.com/auth" [] [("a", "1")]
     r401,
   Event.sleep 7,
   Event.warn (mkWarnInfo "POST" "https://example.com/auth" []
     [("a", "1")] 2 r401)]

/-- The full trace of a one-try `request` against `cS` when every
response is 401: one transport call, one nested authentication cycle
(itself two transport calls), the fixed-delay sleep, the exhaustion
warning. -/
def reqTrace401 : List Event :=
  [Event.transport "GET" "https://example.com/x" [] [] r401,
   Event.auth authTrace401,
   Event.sleep 2,
   Event.warn (mkWarnInfo "GET" "https://example.com/x" [] [] 1 r401)]

end Wqb

namespace Wqb

theorem resolvedMaxTries_pos (dflt : Int) (o : Option Int) :
    1 ≤ resolvedMaxTries dflt o := by
  unfold resolvedMaxTries
  have h : (1 : Int) ≤ max 1 (o.getD dflt) := le_max_left _ _
  omega

theorem resolvedDelay_nonneg (dflt : ℚ) (o : Option ℚ) :
    0 ≤ resolvedDelay dflt o :=
  le_max_left _ _

theorem retrySleepDur_nonneg (ra : Option String) (d : ℚ) (hd : 0 ≤ d) :
    0 ≤ retrySleepDur ra d := by
  cases ra with
  | none => simpa [retrySleepDur] using hd
  | some s =>
    cases hp : pythonFloat s with
    | none => simpa [retrySleepDur, hp] using hd
    | some v =>
      by_cases hv : v < 0
      · simpa [retrySleepDur, hp, hv] using hd
      · simp only [retrySleepDur, hp, if_neg hv]
        exact le_of_not_lt hv

theorem authSleepDur_nonneg (resp : Response) (d : ℚ) (hd : 0 ≤ d) :
    0 ≤ authSleepDur resp d := by
  unfold authSleepDur
  by_cases h : resp.status_code = some 429
  · simp only [h, if_true]; exact retrySleepDur_nonneg _ _ hd
  · simp only [h, if_false]; exact hd

theorem find?_filter_of_imp {α : Type} (p q : α → Bool)
    (h : ∀ x, p x = true → q x = true) :
    ∀ l : List α, (l.filter q).find? p = l.find? p := by
  intro l
  induction l with
  | nil => rfl
  | cons x xs ih =>
    by_cases hq : q x = true
    · rw [List.filter_cons_of_pos hq]
      by_cases hp : p x = true
      · rw [List.find?_cons_of_pos _ hp, List.find?_cons_of_pos _ hp]
      · rw [List.find?_cons_of_neg _ hp, List.find?_cons_of_neg _ hp, ih]
    · have hp : ¬ p x = true := fun hpx => hq (h x hpx)
      rw [List.filter_cons_of_neg hq, ih, List.find?_cons_of_neg _ hp]

theorem dictMerge_get (a b : Kwargs) (k : String) :
    Kwargs.get (dictMerge a b) k =
      (Kwargs.get b k).or (Kwargs.get a k) := by
  have hsplit : (dictMerge a b).find? (fun p => p.1 == k) =
      ((a.filter (fun p => (Kwargs.get b p.1).isNone)).find?
        (fun p => p.1 == k)).or (b.find? (fun p => p.1 == k)) := by
    unfold dictMerge
    exact List.find?_append
  cases hb : b.find? (fun p => p.1 == k) with
  | none =>
    have hfix : (a.filter (fun p => (Kwargs.get b p.1).isNone)).find?
        (fun p => p.1 == k) = a.find? (fun p => p.1 == k) := by
      apply find?_filter_of_imp
      intro x hx
      have hk : x.1 = k := by simpa using hx
      rw [hk]
      unfold Kwargs.get
      rw [hb]
      rfl
    unfold Kwargs.get
    rw [hsplit, hb, hfix]
    cases a.find? (fun p => p.1 == k) <;> rfl
  | some pv =>
    have hnone : (a.filter (fun p => (Kwargs.get b p.1).isNone)).find?
        (fun p => p.1 == k) = none := by
      rw [List.find?_eq_none]
      intro x hx hpx
      have hk : x.1 = k := by simpa using hpx
      have hqx := List.of_mem_filter hx
      rw [hk] at hqx
      unfold Kwargs.get at hqx
      rw [hb] at hqx
      simp at hqx
    unfold Kwargs.get
    rw [hsplit, hb, hnone]
    rfl

theorem countTransportAll_append (xs ys : List Event) :
    countTransportAll (xs ++ ys) =
      countTransportAll xs + countTransportAll ys := by
  induction xs with
  | nil => simp [countTransportAll]
  | cons e es ih =>
    cases e <;> simp [countTransportAll, ih] <;> omega

theorem countTransportAll_flatten (L : List (List Event)) :
    countTransportAll L.flatten = (L.map countTransportAll).sum := by
  induction L with
  | nil => simp [countTransportAll]
  | cons x xs ih => simp [List.flatten_cons, countTransportAll_append, ih]

theorem sum_map_eq_length {α : Type} (f : α → ℕ) :
    ∀ L : List α, (∀ x ∈ L, f x = 1) → (L.map f).sum = L.length := by
  intro L
  induction L with
  | nil => intro _; rfl
  | cons x xs ih =>
    intro h
    have hx := h x (by simp)
    have hxs := ih (fun y hy => h y (by simp [hy]))
    simp [hx, hxs, Nat.add_comm]

theorem sum_map_eq_zero {α : Type} (f : α → ℕ) :
    ∀ L : List α, (∀ x ∈ L, f x = 0) → (L.map f).sum = 0 := by
  intro L
  induction L with
  | nil => intro _; rfl
  | cons x xs ih =>
    intro h
    have hx := h x (by simp)
    have hxs := ih (fun y hy => h y (by simp [hy]))
    simp [hx, hxs]

end Wqb

namespace Wqb

theorem authLoop_state (world : ℕ → Response) (e : Response → Bool) (d : ℚ)
    (m u : String) (ar : List String) (kw : Kwargs) (S : SessionState) :
    ∀ fuel tryNo c, (authLoop world e d m u ar kw S fuel tryNo c).state = S := by
  intro fuel
  induction fuel with
  | zero => intro tryNo c; rfl
  | succ n ih =>
    intro tryNo c
    by_cases h : e (world c) = true
    · simp [authLoop, h]
    · simp only [Bool.not_eq_true] at h
      by_cases hn : n = 0
      · simp [authLoop, h, hn]
      · simp [authLoop, h, hn, ih]

theorem auth_request_state (S : SessionState) (world : ℕ → Response) (c : ℕ)
    (mo uo : Option String) (ar : List String)
    (eo : Option (Response → Bool)) (mto : Option Int) (dlo : Option ℚ)
    (lo : Option String) (kw : Kwargs) :
    (AutoAuthSession.auth_request S world c mo uo ar eo mto dlo lo kw).state
      = S := by
  simp [AutoAuthSession.auth_request, authLoop_state]

theorem requestStep_state (world : ℕ → Response) (e : Response → Bool)
    (d : ℚ) (m u : String) (ar : List String) (kw : Kwargs)
    (S : SessionState) (c : ℕ) :
    (requestStep world e d m u ar kw S c).2.2 = S := by
  simp only [requestStep]
  split
  · rfl
  · split
    · simp [auth_request_state]
    · split
      · rfl
      · rfl

theorem requestStep_counterBefore (world : ℕ → Response)
    (e : Response → Bool) (d : ℚ) (m u : String) (ar : List String)
    (kw : Kwargs) (S : SessionState) (c : ℕ) :
    (requestStep world e d m u ar kw S c).1.counterBefore = c := by
  simp only [requestStep]
  split
  · rfl
  · split
    · rfl
    · split
      · rfl
      · rfl

theorem requestStep_resp (world : ℕ → Response) (e : Response → Bool)
    (d : ℚ) (m u : String) (ar : List String) (kw : Kwargs)
    (S : SessionState) (c : ℕ) :
    (requestStep world e d m u ar kw S c).1.resp = world c := by
  simp only [requestStep]
  split
  · rfl
  · split
    · rfl
    · split
      · rfl
      · rfl

theorem requestStep_accepted (world : ℕ → Response) (e : Response → Bool)
    (d : ℚ) (m u : String) (ar : List String) (kw : Kwargs)
    (S : SessionState) (c : ℕ) :
    (requestStep world e d m u ar kw S c).1.accepted = e (world c) := by
  simp only [requestStep]
  by_cases h : e (world c) = true
  · simp [h]
  · simp only [Bool.not_eq_true] at h
    simp only [h, Bool.false_eq_true, if_false]
    split
    · simp [h]
    · split
      · simp [h]
      · simp [h]

theorem requestLoop_state (world : ℕ → Response) (e : Response → Bool)
    (d : ℚ) (m u : String) (ar : List String) (kw : Kwargs) :
    ∀ fuel tryNo c S,
      (requestLoop world e d m u ar kw fuel tryNo c S).state = S := by
  intro fuel
  induction fuel with
  | zero => intro tryNo c S; rfl
  | succ n ih =>
    intro tryNo c S
    rw [requestLoop]
    by_cases h : (requestStep world e d m u ar kw S c).1.accepted = true
    · simp only [h, if_true]
      exact requestStep_state world e d m u ar kw S c
    · simp only [h, if_false]
      by_cases hn : n = 0
      · simp only [hn, if_true]
        exact requestStep_state world e d m u ar kw S c
      · simp only [hn, if_false]
        rw [ih]
        exact requestStep_state world e d m u ar kw S c

end Wqb

namespace Wqb

/-- Bundled invariant of the `auth_request` loop: when at least one
iteration is allowed, the attempt list is nonempty, bounded by the
fuel, the final `tries` counts the attempts, the returned response is
the last attempt's, acceptance mirrors the predicate on it, and every
attempt before the last one was rejected. -/
theorem authLoop_inv (world : ℕ → Response) (e : Response → Bool) (d : ℚ)
    (m u : String) (ar : List String) (kw : Kwargs) (S : SessionState) :
    ∀ fuel tryNo c r, r = authLoop world e d m u ar kw S fuel tryNo c →
      1 ≤ fuel →
      r.attempts.length ≤ fuel ∧
      1 ≤ r.attempts.length ∧
      r.tries + 1 = tryNo + r.attempts.length ∧
      r.resp = (r.attempts.getLastD defaultAttempt).resp ∧
      r.accepted = e r.resp ∧
      (∀ a ∈ r.attempts.dropLast, a.accepted = false) ∧
      (r.accepted = false → r.attempts.length = fuel) := by
  intro fuel
  induction fuel with
  | zero => intro tryNo c r _ h; omega
  | succ n ih =>
    intro tryNo c r hr _
    rw [authLoop] at hr
    by_cases h : e (world c) = true
    · simp only [h, if_true] at hr
      subst hr
      refine ⟨by simp, by simp, by simp, by simp, ?_, by simp, by simp⟩
      simpa using h.symm
    · simp only [Bool.not_eq_true] at h
      simp only [h, Bool.false_eq_true, if_false] at hr
      by_cases hn : n = 0
      · simp only [hn, if_true] at hr
        subst hr
        refine ⟨by simp, by simp, by simp, by simp, ?_, by simp,
          by simp [hn]⟩
        simpa using h.symm
      · simp only [hn, if_false] at hr
        obtain ⟨h1, h2, h3, h4, h5, h6, h7⟩ :=
          ih (tryNo + 1) (c + 1) _ rfl (by omega)
        subst hr
        have hne : (authLoop world e d m u ar kw S n (tryNo + 1)
            (c + 1)).attempts ≠ [] := by
          intro hc
          rw [hc] at h2
          simp at h2
        obtain ⟨b, bs, hbs⟩ :=
          List.exists_cons_of_ne_nil hne
        refine ⟨?_, ?_, ?_, ?_, ?_, ?_, ?_⟩
        · simp only [List.length_cons]
          omega
        · simp
        · simp only [List.length_cons]
          omega
        · dsimp only
          rw [hbs, List.getLastD_cons, List.getLastD_cons]
          rw [hbs, List.getLastD_cons] at h4
          exact h4
        · exact h5
        · intro a ha
          simp only [hbs, List.dropLast_cons₂, List.mem_cons] at ha
          rcases ha with ha | ha
          · subst ha; rfl
          · exact h6 a (by simp [hbs, ha])
        · intro hf
          have hlen := h7 hf
          simp only [List.length_cons, hlen]

end Wqb

namespace Wqb

/-- Bundled invariant of the `request` loop, as `authLoop_inv`. -/
theorem requestLoop_inv (world : ℕ → Response) (e : Response → Bool)
    (d : ℚ) (m u : String) (ar : List String) (kw : Kwargs) :
    ∀ fuel tryNo c S r,
      r = requestLoop world e d m u ar kw fuel tryNo c S →
      1 ≤ fuel →
      r.attempts.length ≤ fuel ∧
      1 ≤ r.attempts.length ∧
      r.tries + 1 = tryNo + r.attempts.length ∧
      r.resp = (r.attempts.getLastD defaultAttempt).resp ∧
      r.accepted = e r.resp ∧
      (∀ a ∈ r.attempts.dropLast, a.accepted = false) ∧
      (r.accepted = false → r.attempts.length = fuel) := by
  intro fuel
  induction fuel with
  | zero => intro tryNo c S r _ h; omega
  | succ n ih =>
    intro tryNo c S r hr _
    rw [requestLoop] at hr
    by_cases h : (requestStep world e d m u ar kw S c).1.accepted = true
    · simp only [h, if_true] at hr
      subst hr
      refine ⟨by simp, by simp, by simp, by simp, ?_, by simp, by simp⟩
      dsimp only
      rw [requestStep_resp]
      rw [requestStep_accepted] at h
      exact h.symm
    · have h' : (requestStep world e d m u ar kw S c).1.accepted = false := by
        simpa using h
      simp only [h', Bool.false_eq_true, if_false] at hr
      by_cases hn : n = 0
      · simp only [hn, if_true] at hr
        subst hr
        refine ⟨by simp, by simp, by simp, by simp, ?_, by simp,
          by simp [hn]⟩
        dsimp only
        rw [requestStep_resp]
        rw [requestStep_accepted] at h'
        exact h'.symm
      · simp only [hn, if_false] at hr
        obtain ⟨h1, h2, h3, h4, h5, h6, h7⟩ := ih (tryNo + 1)
          (requestStep world e d m u ar kw S c).2.1
          (requestStep world e d m u ar kw S c).2.2 _ rfl (by omega)
        subst hr
        have hne : (requestLoop world e d m u ar kw n (tryNo + 1)
            (requestStep world e d m u ar kw S c).2.1
            (requestStep world e d m u ar kw S c).2.2).attempts ≠ [] := by
          intro hc
          rw [hc] at h2
          simp at h2
        obtain ⟨b, bs, hbs⟩ := List.exists_cons_of_ne_nil hne
        refine ⟨?_, ?_, ?_, ?_, ?_, ?_, ?_⟩
        · simp only [List.length_cons]
          omega
        · simp
        · simp only [List.length_cons]
          omega
        · dsimp only
          rw [hbs, List.getLastD_cons, List.getLastD_cons]
          rw [hbs, List.getLastD_cons] at h4
          exact h4
        · exact h5
        · intro a ha
          simp only [hbs, List.dropLast_cons₂, List.mem_cons] at ha
          rcases ha with ha | ha
          · subst ha; exact h'
          · exact h6 a (by simp [hbs, ha])
        · intro hf
          have hlen := h7 hf
          simp only [List.length_cons, hlen]

/-- Every attempt of the `request` loop is exactly the step function's
output at its own starting counter and the (unchanged) session state. -/
theorem requestLoop_attempts (world : ℕ → Response) (e : Response → Bool)
    (d : ℚ) (m u : String) (ar : List String) (kw : Kwargs) :
    ∀ fuel tryNo c S,
      ∀ a ∈ (requestLoop world e d m u ar kw fuel tryNo c S).attempts,
        a = (requestStep world e d m u ar kw S a.counterBefore).1 := by
  intro fuel
  induction fuel with
  | zero => intro tryNo c S a ha; simp [requestLoop] at ha
  | succ n ih =>
    intro tryNo c S a ha
    rw [requestLoop] at ha
    by_cases h : (requestStep world e d m u ar kw S c).1.accepted = true
    · simp only [h, if_true] at ha
      simp only [List.mem_singleton] at ha
      subst ha
      rw [requestStep_counterBefore]
    · have h' : (requestStep world e d m u ar kw S c).1.accepted = false := by
        simpa using h
      simp only [h', Bool.false_eq_true, if_false] at ha
      by_cases hn : n = 0
      · simp only [hn, if_true] at ha
        simp only [List.mem_singleton] at ha
        subst ha
        rw [requestStep_counterBefore]
      · simp only [hn, if_false] at ha
        simp only [List.mem_cons] at ha
        rcases ha with ha | ha
        · subst ha
          rw [requestStep_counterBefore]
        · have hrec := ih (tryNo + 1)
            (requestStep world e d m u ar kw S c).2.1
            (requestStep world e d m u ar kw S c).2.2 a ha
          rw [requestStep_state] at hrec
          exact hrec

/-- Every attempt of the `auth_request` loop got its response from the
oracle at its own starting counter, its acceptance flag is the
predicate's verdict, and its events are the transport call followed (on
rejection) by the classified sleep. -/
theorem authLoop_attempts (world : ℕ → Response) (e : Response → Bool)
    (d : ℚ) (m u : String) (ar : List String) (kw : Kwargs)
    (S : SessionState) :
    ∀ fuel tryNo c,
      ∀ a ∈ (authLoop world e d m u ar kw S fuel tryNo c).attempts,
        a.resp = world a.counterBefore ∧
        a.accepted = e a.resp ∧
        a.block = (if a.accepted = true then
            [Event.transport m u ar kw a.resp]
          else
            [Event.transport m u ar kw a.resp,
             Event.sleep (authSleepDur a.resp d)]) := by
  intro fuel
  induction fuel with
  | zero => intro tryNo c a ha; simp [authLoop] at ha
  | succ n ih =>
    intro tryNo c a ha
    rw [authLoop] at ha
    by_cases h : e (world c) = true
    · simp only [h, if_true] at ha
      simp only [List.mem_singleton] at ha
      subst ha
      refine ⟨rfl, h.symm, by simp⟩
    · simp only [Bool.not_eq_true] at h
      simp only [h, Bool.false_eq_true, if_false] at ha
      by_cases hn : n = 0
      · simp only [hn, if_true] at ha
        simp only [List.mem_singleton] at ha
        subst ha
        refine ⟨rfl, h.symm, by simp⟩
      · simp only [hn, if_false] at ha
        simp only [List.mem_cons] at ha
        rcases ha with ha | ha
        · subst ha
          refine ⟨rfl, h.symm, by simp⟩
        · exact ih (tryNo + 1) (c + 1) a ha

end Wqb

namespace Wqb

theorem requestStep_of_accepted (world : ℕ → Response)
    (e : Response → Bool) (d : ℚ) (m u : String) (ar : List String)
    (kw : Kwargs) (S : SessionState) (c : ℕ) (h : e (world c) = true) :
    (requestStep world e d m u ar kw S c).1 =
      ⟨c, world c, true, [Event.transport m u ar kw (world c)]⟩ := by
  simp [requestStep, h]

theorem requestStep_of_401 (world : ℕ → Response) (e : Response → Bool)
    (d : ℚ) (m u : String) (ar : List String) (kw : Kwargs)
    (S : SessionState) (c : ℕ) (h : e (world c) = false)
    (h4 : (world c).status_code = some 401) :
    (requestStep world e d m u ar kw S c).1 =
      ⟨c, world c, false,
       [Event.transport m u ar kw (world c),
        Event.auth (AutoAuthSession.auth_request S world (c + 1)
          none none [] none none none none []).trace,
        Event.sleep d]⟩ := by
  simp [requestStep, h, h4]

theorem requestStep_of_429 (world : ℕ → Response) (e : Response → Bool)
    (d : ℚ) (m u : String) (ar : List String) (kw : Kwargs)
    (S : SessionState) (c : ℕ) (h : e (world c) = false)
    (h9 : (world c).status_code = some 429) :
    (requestStep world e d m u ar kw S c).1 =
      ⟨c, world c, false,
       [Event.transport m u ar kw (world c),
        Event.sleep (retrySleepDur
          (headersGet (world c).headers RETRY_AFTER) d)]⟩ := by
  simp [requestStep, h, h9]

theorem requestStep_of_other (world : ℕ → Response) (e : Response → Bool)
    (d : ℚ) (m u : String) (ar : List String) (kw : Kwargs)
    (S : SessionState) (c : ℕ) (h : e (world c) = false)
    (h4 : (world c).status_code ≠ some 401)
    (h9 : (world c).status_code ≠ some 429) :
    (requestStep world e d m u ar kw S c).1 =
      ⟨c, world c, false,
       [Event.transport m u ar kw (world c), Event.sleep d]⟩ := by
  simp [requestStep, h, h4, h9]

theorem auth_request_attempts_def (S : SessionState)
    (world : ℕ → Response) (c : ℕ) (mo uo : Option String)
    (ar : List String) (eo : Option (Response → Bool)) (mto : Option Int)
    (dlo : Option ℚ) (lo : Option String) (kw : Kwargs) :
    (AutoAuthSession.auth_request S world c mo uo ar eo mto dlo lo
        kw).attempts =
      (authLoop world (eo.getD S.auth_expected)
        (resolvedDelay S.auth_delay_unexpected dlo) (mo.getD S.method)
        (uo.getD S.url) ar (dictMerge S.kwargs kw) S
        (resolvedMaxTries S.auth_max_tries mto) 1 c).attempts := rfl

theorem auth_request_tries_def (S : SessionState) (world : ℕ → Response)
    (c : ℕ) (mo uo : Option String) (ar : List String)
    (eo : Option (Response → Bool)) (mto : Option Int) (dlo : Option ℚ)
    (lo : Option String) (kw : Kwargs) :
    (AutoAuthSession.auth_request S world c mo uo ar eo mto dlo lo
        kw).tries =
      (authLoop world (eo.getD S.auth_expected)
        (resolvedDelay S.auth_delay_unexpected dlo) (mo.getD S.method)
        (uo.getD S.url) ar (dictMerge S.kwargs kw) S
        (resolvedMaxTries S.auth_max_tries mto) 1 c).tries := rfl

theorem auth_request_resp_def (S : SessionState) (world : ℕ → Response)
    (c : ℕ) (mo uo : Option String) (ar : List String)
    (eo : Option (Response → Bool)) (mto : Option Int) (dlo : Option ℚ)
    (lo : Option String) (kw : Kwargs) :
    (AutoAuthSession.auth_request S world c mo uo ar eo mto dlo lo
        kw).resp =
      (authLoop world (eo.getD S.auth_expected)
        (resolvedDelay S.auth_delay_unexpected dlo) (mo.getD S.method)
        (uo.getD S.url) ar (dictMerge S.kwargs kw) S
        (resolvedMaxTries S.auth_max_tries mto) 1 c).resp := rfl

theorem auth_request_accepted_def (S : SessionState)
    (world : ℕ → Response) (c : ℕ) (mo uo : Option String)
    (ar : List String) (eo : Option (Response → Bool)) (mto : Option Int)
    (dlo : Option ℚ) (lo : Option String) (kw : Kwargs) :
    (AutoAuthSession.auth_request S world c mo uo ar eo mto dlo lo
        kw).accepted =
      (authLoop world (eo.getD S.auth_expected)
        (resolvedDelay S.auth_delay_unexpected dlo) (mo.getD S.method)
        (uo.getD S.url) ar (dictMerge S.kwargs kw) S
        (resolvedMaxTries S.auth_max_tries mto) 1 c).accepted := rfl

theorem auth_request_trace_def (S : SessionState) (world : ℕ → Response)
    (c : ℕ) (mo uo : Option String) (ar : List String)
    (eo : Option (Response → Bool)) (mto : Option Int) (dlo : Option ℚ)
    (lo : Option String) (kw : Kwargs) :
    (AutoAuthSession.auth_request S world c mo uo ar eo mto dlo lo
        kw).trace =
      (((AutoAuthSession.auth_request S world c mo uo ar eo mto dlo lo
          kw).attempts.map Attempt.block).flatten ++
        (if (AutoAuthSession.auth_request S world c mo uo ar eo mto dlo
            lo kw).accepted then []
         else [Event.warn (mkWarnInfo (mo.getD S.method) (uo.getD S.url)
           ar (dictMerge S.kwargs kw)
           (AutoAuthSession.auth_request S world c mo uo ar eo mto dlo lo
             kw).tries
           (AutoAuthSession.auth_request S world c mo uo ar eo mto dlo lo
             kw).resp)]) ++
        (match lo with
         | none => []
         | some tag => [Event.info (AutoAuthSession.auth_request S world c
             mo uo ar eo mto dlo lo kw).tries tag])) := rfl

theorem request_attempts_def (S : SessionState) (world : ℕ → Response)
    (c : ℕ) (m u : String) (ar : List String)
    (eo : Option (Response → Bool)) (mto : Option Int) (dlo : Option ℚ)
    (lo : Option String) (kw : Kwargs) :
    (AutoAuthSession.request S world c m u ar eo mto dlo lo kw).attempts =
      (requestLoop world (eo.getD S.expected)
        (resolvedDelay S.delay_unexpected dlo) m u ar kw
        (resolvedMaxTries S.max_tries mto) 1 c S).attempts := rfl

theorem request_tries_def (S : SessionState) (world : ℕ → Response)
    (c : ℕ) (m u : String) (ar : List String)
    (eo : Option (Response → Bool)) (mto : Option Int) (dlo : Option ℚ)
    (lo : Option String) (kw : Kwargs) :
    (AutoAuthSession.request S world c m u ar eo mto dlo lo kw).tries =
      (requestLoop world (eo.getD S.expected)
        (resolvedDelay S.delay_unexpected dlo) m u ar kw
        (resolvedMaxTries S.max_tries mto) 1 c S).tries := rfl

theorem request_resp_def (S : SessionState) (world : ℕ → Response)
    (c : ℕ) (m u : String) (ar : List String)
    (eo : Option (Response → Bool)) (mto : Option Int) (dlo : Option ℚ)
    (lo : Option String) (kw : Kwargs) :
    (AutoAuthSession.request S world c m u ar eo mto dlo lo kw).resp =
      (requestLoop world (eo.getD S.expected)
        (resolvedDelay S.delay_unexpected dlo) m u ar kw
        (resolvedMaxTries S.max_tries mto) 1 c S).resp := rfl

theorem request_accepted_def (S : SessionState) (world : ℕ → Response)
    (c : ℕ) (m u : String) (ar : List String)
    (eo : Option (Response → Bool)) (mto : Option Int) (dlo : Option ℚ)
    (lo : Option String) (kw : Kwargs) :
    (AutoAuthSession.request S world c m u ar eo mto dlo lo kw).accepted =
      (requestLoop world (eo.getD S.expected)
        (resolvedDelay S.delay_unexpected dlo) m u ar kw
        (resolvedMaxTries S.max_tries mto) 1 c S).accepted := rfl

theorem request_trace_def (S : SessionState) (world : ℕ → Response)
    (c : ℕ) (m u : String) (ar : List String)
    (eo : Option (Response → Bool)) (mto : Option Int) (dlo : Option ℚ)
    (lo : Option String) (kw : Kwargs) :
    (AutoAuthSession.request S world c m u ar eo mto dlo lo kw).trace =
      (((AutoAuthSession.request S world c m u ar eo mto dlo lo
          kw).attempts.map Attempt.block).flatten ++
        (if (AutoAuthSession.request S world c m u ar eo mto dlo lo
            kw).accepted then []
         else [Event.warn (mkWarnInfo m u ar kw
           (AutoAuthSession.request S world c m u ar eo mto dlo lo
             kw).tries
           (AutoAuthSession.request S world c m u ar eo mto dlo lo
             kw).resp)]) ++
        (match lo with
         | none => []
         | some tag => [Event.info (AutoAuthSession.request S world c m u
             ar eo mto dlo lo kw).tries tag])) := rfl

end Wqb

namespace Wqb

/-- C9: the session state stored at construction (default method, url,
authentication kwargs, both success predicates, both maxTries and
fixedDelay defaults, and the logger handle) is never mutated by any
call to `request` or `auth_request`: the state threaded through either
call comes back equal to the state it started with; all per-call
overrides and the kwargs merge are local to the call. -/
theorem claim_C9_state_immutable (S : SessionState) (world : ℕ → Response)
    (c c' : ℕ) (m u : String) (mo uo : Option String) (ar : List String)
    (eo : Option (Response → Bool)) (mto : Option Int) (dlo : Option ℚ)
    (lo : Option String) (kw : Kwargs) :
    (AutoAuthSession.request S world c m u ar eo mto dlo lo kw).state = S ∧
    (AutoAuthSession.auth_request S world c' mo uo ar eo mto dlo lo
      kw).state = S := by
  refine ⟨?_, auth_request_state S world c' mo uo ar eo mto dlo lo kw⟩
  show (requestLoop world (eo.getD S.expected)
    (resolvedDelay S.delay_unexpected dlo) m u ar kw
    (resolvedMaxTries S.max_tries mto) 1 c S).state = S
  exact requestLoop_state world (eo.getD S.expected)
    (resolvedDelay S.delay_unexpected dlo) m u ar kw
    (resolvedMaxTries S.max_tries mto) 1 c S

/-- C2 as stated is false: the constructor clamps only the
ordinary-request pair.  With `auth_max_tries = 0` and
`auth_delay_unexpected = -1` supplied at construction, the stored
authentication defaults are 0 and -1: not `max(1, input) = 1` and
`max(0.0, input) = 0.0`, and not satisfying `maxTries ≥ 1`,
`fixedDelay ≥ 0`. -/
theorem claim_C2_counterexample :
    (AutoAuthSession.init "POST" "https://example.com/auth" isOK 0 (-1)
      isOK 3 2 0 []).auth_max_tries = 0 ∧
    (AutoAuthSession.init "POST" "https://example.com/auth" isOK 0 (-1)
      isOK 3 2 0 []).auth_max_tries ≠ max 1 0 ∧
    ¬ (1 ≤ (AutoAuthSession.init "POST" "https://example.com/auth" isOK 0
      (-1) isOK 3 2 0 []).auth_max_tries) ∧
    (AutoAuthSession.init "POST" "https://example.com/auth" isOK 0 (-1)
      isOK 3 2 0 []).auth_delay_unexpected = -1 ∧
    (AutoAuthSession.init "POST" "https://example.com/auth" isOK 0 (-1)
      isOK 3 2 0 []).auth_delay_unexpected ≠ max 0 (-1) ∧
    ¬ (0 ≤ (AutoAuthSession.init "POST" "https://example.com/auth" isOK 0
      (-1) isOK 3 2 0 []).auth_delay_unexpected) := by
  refine ⟨rfl, by decide, by decide, rfl, by decide, by decide⟩

/-- C2 amended: at construction only the ordinary-request defaults are
clamped (`max_tries := max(1, input)`, `delay_unexpected :=
max(0.0, input)`); the authentication defaults are stored exactly as
given.  The authentication pair is instead clamped inside each
`auth_request` call after resolution, so the resolved per-call values
always satisfy maxTries ≥ 1 and fixedDelay ≥ 0.0, and every
`auth_request` call performs at least one attempt. -/
theorem claim_C2_amended (method url : String) (ae : Response → Bool)
    (amt : Int) (adl : ℚ) (e : Response → Bool) (mt : Int) (dl : ℚ)
    (lg : ℕ) (kw : Kwargs) (world : ℕ → Response) (c : ℕ)
    (mo uo : Option String) (ar : List String)
    (eo : Option (Response → Bool)) (mto : Option Int) (dlo : Option ℚ)
    (lo : Option String) (kw2 : Kwargs) :
    (AutoAuthSession.init method url ae amt adl e mt dl lg kw).max_tries
      = max 1 mt ∧
    (AutoAuthSession.init method url ae amt adl e mt dl lg
      kw).delay_unexpected = max 0 dl ∧
    (AutoAuthSession.init method url ae amt adl e mt dl lg
      kw).auth_max_tries = amt ∧
    (AutoAuthSession.init method url ae amt adl e mt dl lg
      kw).auth_delay_unexpected = adl ∧
    1 ≤ resolvedMaxTries (AutoAuthSession.init method url ae amt adl e mt
      dl lg kw).auth_max_tries mto ∧
    0 ≤ resolvedDelay (AutoAuthSession.init method url ae amt adl e mt dl
      lg kw).auth_delay_unexpected dlo ∧
    1 ≤ (AutoAuthSession.auth_request
      (AutoAuthSession.init method url ae amt adl e mt dl lg kw) world c
      mo uo ar eo mto dlo lo kw2).attempts.length := by
  refine ⟨rfl, rfl, rfl, rfl, resolvedMaxTries_pos _ _,
    resolvedDelay_nonneg _ _, ?_⟩
  rw [auth_request_attempts_def]
  exact (authLoop_inv world (eo.getD _) (resolvedDelay _ dlo)
    (mo.getD _) (uo.getD _) ar (dictMerge _ kw2) _
    (resolvedMaxTries _ mto) 1 c _ rfl (resolvedMaxTries_pos _ _)).2.1

end Wqb

namespace Wqb

theorem requestStep_block_head (world : ℕ → Response)
    (e : Response → Bool) (d : ℚ) (m u : String) (ar : List String)
    (kw : Kwargs) (S : SessionState) (c : ℕ) :
    (requestStep world e d m u ar kw S c).1.block.head? =
      some (Event.transport m u ar kw (world c)) := by
  simp only [requestStep]
  split
  · rfl
  · split
    · rfl
    · split
      · rfl
      · rfl

/-- C10: in `auth_request`, the keyword options sent to the transport
are the session-level authentication kwargs merged with the per-call
kwargs (`{**self.kwargs, **kwargs}`), per-call keys overriding session
keys with the same name; in `request`, the per-call kwargs are passed
to the transport as-is, with no session-level merge. -/
theorem claim_C10_kwargs_merge (S : SessionState) (world : ℕ → Response)
    (c c' : ℕ) (m u : String) (mo uo : Option String) (ar : List String)
    (eo : Option (Response → Bool)) (mto : Option Int) (dlo : Option ℚ)
    (lo : Option String) (kw : Kwargs) :
    (∀ a ∈ (AutoAuthSession.auth_request S world c' mo uo ar eo mto dlo
        lo kw).attempts,
      a.block.head? = some (Event.transport (mo.getD S.method)
        (uo.getD S.url) ar (dictMerge S.kwargs kw) a.resp)) ∧
    (∀ k, Kwargs.get (dictMerge S.kwargs kw) k =
      (Kwargs.get kw k).or (Kwargs.get S.kwargs k)) ∧
    (∀ a ∈ (AutoAuthSession.request S world c m u ar eo mto dlo lo
        kw).attempts,
      a.block.head? = some (Event.transport m u ar kw a.resp)) := by
  refine ⟨?_, fun k => dictMerge_get S.kwargs kw k, ?_⟩
  · intro a ha
    rw [auth_request_attempts_def] at ha
    obtain ⟨h1, h2, h3⟩ := authLoop_attempts world
      (eo.getD S.auth_expected) (resolvedDelay S.auth_delay_unexpected
      dlo) (mo.getD S.method) (uo.getD S.url) ar (dictMerge S.kwargs kw)
      S (resolvedMaxTries S.auth_max_tries mto) 1 c' a ha
    rw [h3]
    by_cases hacc : a.accepted = true
    · simp [hacc]
    · simp [hacc]
  · intro a ha
    rw [request_attempts_def] at ha
    have hstep := requestLoop_attempts world (eo.getD S.expected)
      (resolvedDelay S.delay_unexpected dlo) m u ar kw
      (resolvedMaxTries S.max_tries mto) 1 c S a ha
    obtain ⟨cb, hcb⟩ : ∃ n, a.counterBefore = n := ⟨_, rfl⟩
    rw [hcb] at hstep
    rw [hstep, requestStep_resp]
    exact requestStep_block_head world (eo.getD S.expected)
      (resolvedDelay S.delay_unexpected dlo) m u ar kw S cb

/-- Witness for C10 at a concrete input: session kwargs
`[("a","1")]`, per-call kwargs `[("a","2"), ("b","3")]`; the transport
receives the merged mapping in which the per-call value of "a" wins. -/
theorem claim_C10_witness :
    Kwargs.get (dictMerge cS.kwargs [("a", "2"), ("b", "3")]) "a"
      = some "2" ∧
    aKw ∈ (AutoAuthSession.auth_request cS w500 0 none none [] none
      (some 1) none none [("a", "2"), ("b", "3")]).attempts ∧
    aKw.block.head? = some (Event.transport "POST"
      "https://example.com/auth" []
      (dictMerge cS.kwargs [("a", "2"), ("b", "3")]) aKw.resp) := by
  have hmem : aKw ∈ (AutoAuthSession.auth_request cS w500 0 none none []
      none (some 1) none none [("a", "2"), ("b", "3")]).attempts := by
    rw [show (AutoAuthSession.auth_request cS w500 0 none none [] none
      (some 1) none none [("a", "2"), ("b", "3")]).attempts = [aKw] from
      rfl]
    exact List.mem_singleton.mpr rfl
  have h := claim_C10_kwargs_merge cS w500 0 0 "GET"
    "https://example.com/x" none none [] none (some 1) none none
    [("a", "2"), ("b", "3")]
  refine ⟨?_, hmem, ?_⟩
  · rw [h.2.1 "a"]
    rfl
  · exact h.1 aKw hmem

end Wqb

namespace Wqb

theorem getLastD_irrel {α : Type} (l : List α) (h : l ≠ []) (d1 d2 : α) :
    l.getLastD d1 = l.getLastD d2 := by
  cases l with
  | nil => exact absurd rfl h
  | cons x xs => rw [List.getLastD_cons, List.getLastD_cons]

theorem getLastD_mem {α : Type} (l : List α) (h : l ≠ []) (d : α) :
    l.getLastD d ∈ l := by
  cases l with
  | nil => exact absurd rfl h
  | cons x xs =>
    rw [List.getLastD_cons]
    exact List.getLastD_mem_cons xs x

theorem authLoop_block_counts (world : ℕ → Response)
    (e : Response → Bool) (d : ℚ) (m u : String) (ar : List String)
    (kw : Kwargs) (S : SessionState) (fuel tryNo c : ℕ) :
    ∀ a ∈ (authLoop world e d m u ar kw S fuel tryNo c).attempts,
      countTransportAll a.block = 1 ∧ countTransport a.block = 1 ∧
      countWarn a.block = 0 ∧ countAuth a.block = 0 ∧
      countInfo a.block = 0 ∧
      countSleep a.block = (if a.accepted = true then 0 else 1) := by
  intro a ha
  obtain ⟨h1, h2, h3⟩ := authLoop_attempts world e d m u ar kw S fuel
    tryNo c a ha
  by_cases hacc : a.accepted = true
  · have hb : a.block = [Event.transport m u ar kw a.resp] := by
      rw [h3, if_pos hacc]
    rw [hb]
    refine ⟨by simp [countTransportAll], rfl, rfl, rfl, rfl, ?_⟩
    rw [if_pos hacc]
    rfl
  · have hb : a.block = [Event.transport m u ar kw a.resp,
        Event.sleep (authSleepDur a.resp d)] := by
      rw [h3, if_neg hacc]
    rw [hb]
    refine ⟨by simp [countTransportAll], rfl, rfl, rfl, rfl, ?_⟩
    rw [if_neg hacc]
    rfl

theorem requestLoop_block_counts (world : ℕ → Response)
    (e : Response → Bool) (d : ℚ) (m u : String) (ar : List String)
    (kw : Kwargs) (fuel tryNo c : ℕ) (S : SessionState) :
    ∀ a ∈ (requestLoop world e d m u ar kw fuel tryNo c S).attempts,
      countTransport a.block = 1 ∧ countWarn a.block = 0 ∧
      countInfo a.block = 0 ∧
      countSleep a.block = (if a.accepted = true then 0 else 1) ∧
      (a.resp.status_code ≠ some 401 →
        countTransportAll a.block = 1 ∧ countAuth a.block = 0) ∧
      (a.accepted = true →
        countTransportAll a.block = 1 ∧ countAuth a.block = 0) := by
  intro a ha
  have hstep := requestLoop_attempts world e d m u ar kw fuel tryNo c S
    a ha
  obtain ⟨cb, hcb⟩ : ∃ n, a.counterBefore = n := ⟨_, rfl⟩
  rw [hcb] at hstep
  by_cases hacc : e (world cb) = true
  · have hb := requestStep_of_accepted world e d m u ar kw S cb hacc
    rw [hstep, hb]
    exact ⟨rfl, rfl, rfl, rfl,
      fun _ => ⟨by simp [countTransportAll], rfl⟩,
      fun _ => ⟨by simp [countTransportAll], rfl⟩⟩
  · simp only [Bool.not_eq_true] at hacc
    by_cases h4 : (world cb).status_code = some 401
    · have hb := requestStep_of_401 world e d m u ar kw S cb hacc h4
      rw [hstep, hb]
      refine ⟨rfl, rfl, rfl, rfl, ?_, ?_⟩
      · intro hne
        exact absurd h4 hne
      · intro hf
        exact absurd hf (by simp)
    · by_cases h9 : (world cb).status_code = some 429
      · have hb := requestStep_of_429 world e d m u ar kw S cb hacc h9
        rw [hstep, hb]
        exact ⟨rfl, rfl, rfl, rfl,
          fun _ => ⟨by simp [countTransportAll], rfl⟩,
          fun hf => absurd hf (by simp)⟩
      · have hb := requestStep_of_other world e d m u ar kw S cb hacc h4
          h9
        rw [hstep, hb]
        exact ⟨rfl, rfl, rfl, rfl,
          fun _ => ⟨by simp [countTransportAll], rfl⟩,
          fun hf => absurd hf (by simp)⟩

end Wqb

namespace Wqb

theorem auth_request_counts (S : SessionState) (world : ℕ → Response)
    (c : ℕ) (mo uo : Option String) (ar : List String)
    (eo : Option (Response → Bool)) (mto : Option Int) (dlo : Option ℚ)
    (lo : Option String) (kw : Kwargs) :
    countTransportAll (AutoAuthSession.auth_request S world c mo uo ar eo
        mto dlo lo kw).trace =
      (AutoAuthSession.auth_request S world c mo uo ar eo mto dlo lo
        kw).attempts.length ∧
    countTransport (AutoAuthSession.auth_request S world c mo uo ar eo
        mto dlo lo kw).trace =
      (AutoAuthSession.auth_request S world c mo uo ar eo mto dlo lo
        kw).attempts.length ∧
    countWarn (AutoAuthSession.auth_request S world c mo uo ar eo mto dlo
        lo kw).trace =
      (if (AutoAuthSession.auth_request S world c mo uo ar eo mto dlo lo
        kw).accepted = true then 0 else 1) := by
  have hblocks := authLoop_block_counts world (eo.getD S.auth_expected)
    (resolvedDelay S.auth_delay_unexpected dlo) (mo.getD S.method)
    (uo.getD S.url) ar (dictMerge S.kwargs kw) S
    (resolvedMaxTries S.auth_max_tries mto) 1 c
  rw [← auth_request_attempts_def S world c mo uo ar eo mto dlo lo kw]
    at hblocks
  refine ⟨?_, ?_, ?_⟩
  · rw [auth_request_trace_def, countTransportAll_append,
      countTransportAll_append, countTransportAll_flatten, List.map_map]
    have h1 := sum_map_eq_length (countTransportAll ∘ Attempt.block)
      (AutoAuthSession.auth_request S world c mo uo ar eo mto dlo lo
        kw).attempts (fun a ha => (hblocks a ha).1)
    rw [h1]
    have h2 : countTransportAll
        (if (AutoAuthSession.auth_request S world c mo uo ar eo mto dlo
          lo kw).accepted = true then ([] : List Event)
         else [Event.warn (mkWarnInfo (mo.getD S.method) (uo.getD S.url)
           ar (dictMerge S.kwargs kw) (AutoAuthSession.auth_request S
             world c mo uo ar eo mto dlo lo kw).tries
           (AutoAuthSession.auth_request S world c mo uo ar eo mto dlo lo
             kw).resp)]) = 0 := by
      split <;> simp [countTransportAll]
    rw [h2]
    cases lo <;> simp [countTransportAll]
  · rw [auth_request_trace_def]
    simp only [countTransport, List.countP_append, List.countP_flatten,
      List.map_map]
    have h1 := sum_map_eq_length
      (List.countP Event.isTransport ∘ Attempt.block)
      (AutoAuthSession.auth_request S world c mo uo ar eo mto dlo lo
        kw).attempts (fun a ha => (hblocks a ha).2.1)
    rw [h1]
    have h2 : List.countP Event.isTransport
        (if (AutoAuthSession.auth_request S world c mo uo ar eo mto dlo
          lo kw).accepted = true then ([] : List Event)
         else [Event.warn (mkWarnInfo (mo.getD S.method) (uo.getD S.url)
           ar (dictMerge S.kwargs kw) (AutoAuthSession.auth_request S
             world c mo uo ar eo mto dlo lo kw).tries
           (AutoAuthSession.auth_request S world c mo uo ar eo mto dlo lo
             kw).resp)]) = 0 := by
      split <;> rfl
    rw [h2]
    cases lo <;> rfl
  · rw [auth_request_trace_def]
    simp only [countWarn, List.countP_append, List.countP_flatten,
      List.map_map]
    have h1 := sum_map_eq_zero (List.countP Event.isWarn ∘ Attempt.block)
      (AutoAuthSession.auth_request S world c mo uo ar eo mto dlo lo
        kw).attempts (fun a ha => (hblocks a ha).2.2.1)
    rw [h1]
    cases lo <;> split <;> rfl

end Wqb

namespace Wqb

theorem request_counts (S : SessionState) (world : ℕ → Response) (c : ℕ)
    (m u : String) (ar : List String) (eo : Option (Response → Bool))
    (mto : Option Int) (dlo : Option ℚ) (lo : Option String)
    (kw : Kwargs) :
    countTransport (AutoAuthSession.request S world c m u ar eo mto dlo
        lo kw).trace =
      (AutoAuthSession.request S world c m u ar eo mto dlo lo
        kw).attempts.length ∧
    countWarn (AutoAuthSession.request S world c m u ar eo mto dlo lo
        kw).trace =
      (if (AutoAuthSession.request S world c m u ar eo mto dlo lo
        kw).accepted = true then 0 else 1) ∧
    countSleep (AutoAuthSession.request S world c m u ar eo mto dlo lo
        kw).trace =
      ((AutoAuthSession.request S world c m u ar eo mto dlo lo
        kw).attempts.map (fun a => countSleep a.block)).sum ∧
    countAuth (AutoAuthSession.request S world c m u ar eo mto dlo lo
        kw).trace =
      ((AutoAuthSession.request S world c m u ar eo mto dlo lo
        kw).attempts.map (fun a => countAuth a.block)).sum ∧
    countTransportAll (AutoAuthSession.request S world c m u ar eo mto
        dlo lo kw).trace =
      ((AutoAuthSession.request S world c m u ar eo mto dlo lo
        kw).attempts.map (fun a => countTransportAll a.block)).sum := by
  have hblocks := requestLoop_block_counts world (eo.getD S.expected)
    (resolvedDelay S.delay_unexpected dlo) m u ar kw
    (resolvedMaxTries S.max_tries mto) 1 c S
  rw [← request_attempts_def S world c m u ar eo mto dlo lo kw]
    at hblocks
  refine ⟨?_, ?_, ?_, ?_, ?_⟩
  · rw [request_trace_def]
    simp only [countTransport, List.countP_append, List.countP_flatten,
      List.map_map]
    have h1 := sum_map_eq_length
      (List.countP Event.isTransport ∘ Attempt.block)
      (AutoAuthSession.request S world c m u ar eo mto dlo lo
        kw).attempts (fun a ha => (hblocks a ha).1)
    rw [h1]
    have h2 : List.countP Event.isTransport
        (if (AutoAuthSession.request S world c m u ar eo mto dlo lo
          kw).accepted = true then ([] : List Event)
         else [Event.warn (mkWarnInfo m u ar kw
           (AutoAuthSession.request S world c m u ar eo mto dlo lo
             kw).tries
           (AutoAuthSession.request S world c m u ar eo mto dlo lo
             kw).resp)]) = 0 := by
      split <;> rfl
    rw [h2]
    cases lo <;> rfl
  · rw [request_trace_def]
    simp only [countWarn, List.countP_append, List.countP_flatten,
      List.map_map]
    have h1 := sum_map_eq_zero (List.countP Event.isWarn ∘ Attempt.block)
      (AutoAuthSession.request S world c m u ar eo mto dlo lo
        kw).attempts (fun a ha => (hblocks a ha).2.1)
    rw [h1]
    cases lo <;> split <;> rfl
  · rw [request_trace_def]
    simp only [countSleep, List.countP_append, List.countP_flatten,
      List.map_map, Function.comp_def]
    have h2 : List.countP Event.isSleep
        (if (AutoAuthSession.request S world c m u ar eo mto dlo lo
          kw).accepted = true then ([] : List Event)
         else [Event.warn (mkWarnInfo m u ar kw
           (AutoAuthSession.request S world c m u ar eo mto dlo lo
             kw).tries
           (AutoAuthSession.request S world c m u ar eo mto dlo lo
             kw).resp)]) = 0 := by
      split <;> rfl
    rw [h2]
    cases lo <;> simp [Event.isSleep]
  · rw [request_trace_def]
    simp only [countAuth, List.countP_append, List.countP_flatten,
      List.map_map, Function.comp_def]
    have h2 : List.countP Event.isAuth
        (if (AutoAuthSession.request S world c m u ar eo mto dlo lo
          kw).accepted = true then ([] : List Event)
         else [Event.warn (mkWarnInfo m u ar kw
           (AutoAuthSession.request S world c m u ar eo mto dlo lo
             kw).tries
           (AutoAuthSession.request S world c m u ar eo mto dlo lo
             kw).resp)]) = 0 := by
      split <;> rfl
    rw [h2]
    cases lo <;> simp [Event.isAuth]
  · rw [request_trace_def, countTransportAll_append,
      countTransportAll_append, countTransportAll_flatten, List.map_map]
    simp only [Function.comp_def]
    have h2 : countTransportAll
        (if (AutoAuthSession.request S world c m u ar eo mto dlo lo
          kw).accepted = true then ([] : List Event)
         else [Event.warn (mkWarnInfo m u ar kw
           (AutoAuthSession.request S world c m u ar eo mto dlo lo
             kw).tries
           (AutoAuthSession.request S world c m u ar eo mto dlo lo
             kw).resp)]) = 0 := by
      split <;> simp [countTransportAll]
    rw [h2]
    cases lo <;> simp [countTransportAll]

end Wqb

namespace Wqb

theorem auth_request_warn_mem (S : SessionState) (world : ℕ → Response)
    (c : ℕ) (mo uo : Option String) (ar : List String)
    (eo : Option (Response → Bool)) (mto : Option Int) (dlo : Option ℚ)
    (lo : Option String) (kw : Kwargs)
    (hf : (AutoAuthSession.auth_request S world c mo uo ar eo mto dlo lo
      kw).accepted = false) :
    Event.warn (mkWarnInfo (mo.getD S.method) (uo.getD S.url) ar
      (dictMerge S.kwargs kw)
      (AutoAuthSession.auth_request S world c mo uo ar eo mto dlo lo
        kw).tries
      (AutoAuthSession.auth_request S world c mo uo ar eo mto dlo lo
        kw).resp) ∈
      (AutoAuthSession.auth_request S world c mo uo ar eo mto dlo lo
        kw).trace := by
  rw [auth_request_trace_def, if_neg (by simp [hf])]
  refine List.mem_append.mpr (Or.inl (List.mem_append.mpr (Or.inr ?_)))
  simp

theorem auth_request_info_mem (S : SessionState) (world : ℕ → Response)
    (c : ℕ) (mo uo : Option String) (ar : List String)
    (eo : Option (Response → Bool)) (mto : Option Int) (dlo : Option ℚ)
    (kw : Kwargs) (tag : String) :
    Event.info (AutoAuthSession.auth_request S world c mo uo ar eo mto
      dlo (some tag) kw).tries tag ∈
      (AutoAuthSession.auth_request S world c mo uo ar eo mto dlo
        (some tag) kw).trace := by
  rw [auth_request_trace_def]
  refine List.mem_append.mpr (Or.inr ?_)
  simp

theorem request_warn_mem (S : SessionState) (world : ℕ → Response)
    (c : ℕ) (m u : String) (ar : List String)
    (eo : Option (Response → Bool)) (mto : Option Int) (dlo : Option ℚ)
    (lo : Option String) (kw : Kwargs)
    (hf : (AutoAuthSession.request S world c m u ar eo mto dlo lo
      kw).accepted = false) :
    Event.warn (mkWarnInfo m u ar kw
      (AutoAuthSession.request S world c m u ar eo mto dlo lo kw).tries
      (AutoAuthSession.request S world c m u ar eo mto dlo lo
        kw).resp) ∈
      (AutoAuthSession.request S world c m u ar eo mto dlo lo
        kw).trace := by
  rw [request_trace_def, if_neg (by simp [hf])]
  refine List.mem_append.mpr (Or.inl (List.mem_append.mpr (Or.inr ?_)))
  simp

theorem request_info_mem (S : SessionState) (world : ℕ → Response)
    (c : ℕ) (m u : String) (ar : List String)
    (eo : Option (Response → Bool)) (mto : Option Int) (dlo : Option ℚ)
    (kw : Kwargs) (tag : String) :
    Event.info (AutoAuthSession.request S world c m u ar eo mto dlo
      (some tag) kw).tries tag ∈
      (AutoAuthSession.request S world c m u ar eo mto dlo (some tag)
        kw).trace := by
  rw [request_trace_def]
  refine List.mem_append.mpr (Or.inr ?_)
  simp

/-- C7: when the retry loop of `request` or `auth_request` exhausts all
maxTries attempts without the predicate ever accepting a response, the
call's own trace carries exactly one warning diagnostic (whose payload
holds the call's method, url, args, kwargs and the final response's
status code, reason, URL, elapsed time, headers and body text), the
last response obtained by the loop is returned as-is, and the
functions are total: exhaustion produces a value, never an exception. -/
theorem claim_C7_exhaustion_warns (S : SessionState)
    (world : ℕ → Response) (c c' : ℕ) (m u : String)
    (mo uo : Option String) (ar : List String)
    (eo : Option (Response → Bool)) (mto : Option Int) (dlo : Option ℚ)
    (lo : Option String) (kw : Kwargs) :
    ((AutoAuthSession.auth_request S world c' mo uo ar eo mto dlo lo
        kw).accepted = false →
      countWarn (AutoAuthSession.auth_request S world c' mo uo ar eo mto
        dlo lo kw).trace = 1 ∧
      Event.warn (mkWarnInfo (mo.getD S.method) (uo.getD S.url) ar
        (dictMerge S.kwargs kw)
        (AutoAuthSession.auth_request S world c' mo uo ar eo mto dlo lo
          kw).tries
        (AutoAuthSession.auth_request S world c' mo uo ar eo mto dlo lo
          kw).resp) ∈
        (AutoAuthSession.auth_request S world c' mo uo ar eo mto dlo lo
          kw).trace ∧
      (AutoAuthSession.auth_request S world c' mo uo ar eo mto dlo lo
          kw).resp =
        ((AutoAuthSession.auth_request S world c' mo uo ar eo mto dlo lo
          kw).attempts.getLastD defaultAttempt).resp ∧
      1 ≤ (AutoAuthSession.auth_request S world c' mo uo ar eo mto dlo
        lo kw).attempts.length) ∧
    ((AutoAuthSession.request S world c m u ar eo mto dlo lo
        kw).accepted = false →
      countWarn (AutoAuthSession.request S world c m u ar eo mto dlo lo
        kw).trace = 1 ∧
      Event.warn (mkWarnInfo m u ar kw
        (AutoAuthSession.request S world c m u ar eo mto dlo lo
          kw).tries
        (AutoAuthSession.request S world c m u ar eo mto dlo lo
          kw).resp) ∈
        (AutoAuthSession.request S world c m u ar eo mto dlo lo
          kw).trace ∧
      (AutoAuthSession.request S world c m u ar eo mto dlo lo kw).resp =
        ((AutoAuthSession.request S world c m u ar eo mto dlo lo
          kw).attempts.getLastD defaultAttempt).resp ∧
      1 ≤ (AutoAuthSession.request S world c m u ar eo mto dlo lo
        kw).attempts.length) := by
  constructor
  · intro hf
    obtain ⟨i1, i2, i3, i4, i5, i6, i7⟩ := authLoop_inv world
      (eo.getD S.auth_expected) (resolvedDelay S.auth_delay_unexpected
      dlo) (mo.getD S.method) (uo.getD S.url) ar (dictMerge S.kwargs kw)
      S (resolvedMaxTries S.auth_max_tries mto) 1 c' _ rfl
      (resolvedMaxTries_pos _ _)
    refine ⟨?_, auth_request_warn_mem S world c' mo uo ar eo mto dlo lo
      kw hf, ?_, ?_⟩
    · rw [(auth_request_counts S world c' mo uo ar eo mto dlo lo
        kw).2.2, if_neg (by simp [hf])]
    · rw [auth_request_resp_def, auth_request_attempts_def]
      exact i4
    · rw [auth_request_attempts_def]
      exact i2
  · intro hf
    obtain ⟨i1, i2, i3, i4, i5, i6, i7⟩ := requestLoop_inv world
      (eo.getD S.expected) (resolvedDelay S.delay_unexpected dlo) m u ar
      kw (resolvedMaxTries S.max_tries mto) 1 c S _ rfl
      (resolvedMaxTries_pos _ _)
    refine ⟨?_, request_warn_mem S world c m u ar eo mto dlo lo kw hf,
      ?_, ?_⟩
    · rw [(request_counts S world c m u ar eo mto dlo lo kw).2.1,
        if_neg (by simp [hf])]
    · rw [request_resp_def, request_attempts_def]
      exact i4
    · rw [request_attempts_def]
      exact i2

end Wqb

namespace Wqb

/-- Witness for C7: with a predicate demanding 200 and a world that
answers 500 forever, both calls exhaust their retries, and each call's
trace carries exactly one warning. -/
theorem claim_C7_witness :
    (AutoAuthSession.auth_request cS w500 0 none none [] none none none
      none []).accepted = false ∧
    (AutoAuthSession.request cS w500 0 "GET" "https://example.com/x" []
      none none none none []).accepted = false ∧
    countWarn (AutoAuthSession.auth_request cS w500 0 none none [] none
      none none none []).trace = 1 ∧
    countWarn (AutoAuthSession.request cS w500 0 "GET"
      "https://example.com/x" [] none none none none []).trace = 1 := by
  have h := claim_C7_exhaustion_warns cS w500 0 0 "GET"
    "https://example.com/x" none none [] none none none none []
  exact ⟨rfl, rfl, (h.1 rfl).1, (h.2 rfl).1⟩

/-- C8: in both retry loops, if the success predicate accepts the
response of some attempt, the loop stops right there: the attempt count
equals the number of attempts made and is within maxTries, the trace
holds exactly that many transport invocations, the accepting (last)
attempt performs no sleep, no warning is emitted, the accepted response
is returned, and when a log tag was supplied the info diagnostic
reports exactly that attempt count. -/
theorem claim_C8_stop_on_success (S : SessionState)
    (world : ℕ → Response) (c c' : ℕ) (m u : String)
    (mo uo : Option String) (ar : List String)
    (eo : Option (Response → Bool)) (mto : Option Int) (dlo : Option ℚ)
    (lo : Option String) (kw : Kwargs) :
    ((AutoAuthSession.auth_request S world c' mo uo ar eo mto dlo lo
        kw).accepted = true →
      (AutoAuthSession.auth_request S world c' mo uo ar eo mto dlo lo
          kw).attempts.length =
        (AutoAuthSession.auth_request S world c' mo uo ar eo mto dlo lo
          kw).tries ∧
      (AutoAuthSession.auth_request S world c' mo uo ar eo mto dlo lo
          kw).tries ≤ resolvedMaxTries S.auth_max_tries mto ∧
      countTransportAll (AutoAuthSession.auth_request S world c' mo uo
          ar eo mto dlo lo kw).trace =
        (AutoAuthSession.auth_request S world c' mo uo ar eo mto dlo lo
          kw).tries ∧
      countWarn (AutoAuthSession.auth_request S world c' mo uo ar eo mto
        dlo lo kw).trace = 0 ∧
      (AutoAuthSession.auth_request S world c' mo uo ar eo mto dlo lo
          kw).resp =
        ((AutoAuthSession.auth_request S world c' mo uo ar eo mto dlo lo
          kw).attempts.getLastD defaultAttempt).resp ∧
      (eo.getD S.auth_expected) (AutoAuthSession.auth_request S world c'
        mo uo ar eo mto dlo lo kw).resp = true ∧
      countSleep ((AutoAuthSession.auth_request S world c' mo uo ar eo
        mto dlo lo kw).attempts.getLastD defaultAttempt).block = 0 ∧
      (∀ tag, lo = some tag →
        Event.info (AutoAuthSession.auth_request S world c' mo uo ar eo
          mto dlo (some tag) kw).tries tag ∈
        (AutoAuthSession.auth_request S world c' mo uo ar eo mto dlo
          (some tag) kw).trace)) ∧
    ((AutoAuthSession.request S world c m u ar eo mto dlo lo
        kw).accepted = true →
      (AutoAuthSession.request S world c m u ar eo mto dlo lo
          kw).attempts.length =
        (AutoAuthSession.request S world c m u ar eo mto dlo lo
          kw).tries ∧
      (AutoAuthSession.request S world c m u ar eo mto dlo lo kw).tries
        ≤ resolvedMaxTries S.max_tries mto ∧
      countTransport (AutoAuthSession.request S world c m u ar eo mto
          dlo lo kw).trace =
        (AutoAuthSession.request S world c m u ar eo mto dlo lo
          kw).tries ∧
      countWarn (AutoAuthSession.request S world c m u ar eo mto dlo lo
        kw).trace = 0 ∧
      (AutoAuthSession.request S world c m u ar eo mto dlo lo kw).resp =
        ((AutoAuthSession.request S world c m u ar eo mto dlo lo
          kw).attempts.getLastD defaultAttempt).resp ∧
      (eo.getD S.expected) (AutoAuthSession.request S world c m u ar eo
        mto dlo lo kw).resp = true ∧
      countSleep ((AutoAuthSession.request S world c m u ar eo mto dlo
        lo kw).attempts.getLastD defaultAttempt).block = 0 ∧
      (∀ tag, lo = some tag →
        Event.info (AutoAuthSession.request S world c m u ar eo mto dlo
          (some tag) kw).tries tag ∈
        (AutoAuthSession.request S world c m u ar eo mto dlo (some tag)
          kw).trace)) := by
  constructor
  · intro hacc
    obtain ⟨i1, i2, i3, i4, i5, i6, i7⟩ := authLoop_inv world
      (eo.getD S.auth_expected) (resolvedDelay S.auth_delay_unexpected
      dlo) (mo.getD S.method) (uo.getD S.url) ar (dictMerge S.kwargs kw)
      S (resolvedMaxTries S.auth_max_tries mto) 1 c' _ rfl
      (resolvedMaxTries_pos _ _)
    have hlen : (AutoAuthSession.auth_request S world c' mo uo ar eo mto
        dlo lo kw).attempts.length =
        (AutoAuthSession.auth_request S world c' mo uo ar eo mto dlo lo
        kw).tries := by
      rw [auth_request_attempts_def, auth_request_tries_def]
      omega
    have hexp : (eo.getD S.auth_expected) (AutoAuthSession.auth_request
        S world c' mo uo ar eo mto dlo lo kw).resp = true := by
      rw [auth_request_resp_def]
      rw [auth_request_accepted_def] at hacc
      rw [← i5]
      exact hacc
    refine ⟨hlen, ?_, ?_, ?_, ?_, hexp, ?_, ?_⟩
    · rw [auth_request_tries_def]
      rw [auth_request_attempts_def] at hlen
      rw [auth_request_tries_def] at hlen
      omega
    · rw [(auth_request_counts S world c' mo uo ar eo mto dlo lo kw).1]
      exact hlen
    · rw [(auth_request_counts S world c' mo uo ar eo mto dlo lo
        kw).2.2, if_pos hacc]
    · rw [auth_request_resp_def, auth_request_attempts_def]
      exact i4
    · have hne : (AutoAuthSession.auth_request S world c' mo uo ar eo
          mto dlo lo kw).attempts ≠ [] := by
        rw [auth_request_attempts_def]
        intro hc
        rw [hc] at i2
        simp at i2
      have hmem := getLastD_mem _ hne defaultAttempt
      rw [auth_request_attempts_def] at hmem
      have hb := (authLoop_block_counts world (eo.getD S.auth_expected)
        (resolvedDelay S.auth_delay_unexpected dlo) (mo.getD S.method)
        (uo.getD S.url) ar (dictMerge S.kwargs kw) S
        (resolvedMaxTries S.auth_max_tries mto) 1 c' _ hmem).2.2.2.2.2
      have hlast : ((authLoop world (eo.getD S.auth_expected)
          (resolvedDelay S.auth_delay_unexpected dlo) (mo.getD S.method)
          (uo.getD S.url) ar (dictMerge S.kwargs kw) S
          (resolvedMaxTries S.auth_max_tries mto) 1
          c').attempts.getLastD defaultAttempt).accepted = true := by
        obtain ⟨a1, a2, a3⟩ := authLoop_attempts world
          (eo.getD S.auth_expected) (resolvedDelay
          S.auth_delay_unexpected dlo) (mo.getD S.method) (uo.getD S.url)
          ar (dictMerge S.kwargs kw) S
          (resolvedMaxTries S.auth_max_tries mto) 1 c' _ hmem
        rw [a2, ← i4]
        rw [auth_request_accepted_def] at hacc
        rw [i5] at hacc
        exact hacc
      rw [auth_request_attempts_def]
      rw [hb, if_pos hlast]
    · intro tag htag
      exact auth_request_info_mem S world c' mo uo ar eo mto dlo kw tag
  · intro hacc
    obtain ⟨i1, i2, i3, i4, i5, i6, i7⟩ := requestLoop_inv world
      (eo.getD S.expected) (resolvedDelay S.delay_unexpected dlo) m u ar
      kw (resolvedMaxTries S.max_tries mto) 1 c S _ rfl
      (resolvedMaxTries_pos _ _)
    have hlen : (AutoAuthSession.request S world c m u ar eo mto dlo lo
        kw).attempts.length =
        (AutoAuthSession.request S world c m u ar eo mto dlo lo
        kw).tries := by
      rw [request_attempts_def, request_tries_def]
      omega
    have hexp : (eo.getD S.expected) (AutoAuthSession.request S world c
        m u ar eo mto dlo lo kw).resp = true := by
      rw [request_resp_def]
      rw [request_accepted_def] at hacc
      rw [← i5]
      exact hacc
    refine ⟨hlen, ?_, ?_, ?_, ?_, hexp, ?_, ?_⟩
    · rw [request_tries_def]
      rw [request_attempts_def] at hlen
      rw [request_tries_def] at hlen
      omega
    · rw [(request_counts S world c m u ar eo mto dlo lo kw).1]
      exact hlen
    · rw [(request_counts S world c m u ar eo mto dlo lo kw).2.1,
        if_pos hacc]
    · rw [request_resp_def, request_attempts_def]
      exact i4
    · have hne : (AutoAuthSession.request S world c m u ar eo mto dlo lo
          kw).attempts ≠ [] := by
        rw [request_attempts_def]
        intro hc
        rw [hc] at i2
        simp at i2
      have hmem := getLastD_mem _ hne defaultAttempt
      rw [request_attempts_def] at hmem
      have hb := (requestLoop_block_counts world (eo.getD S.expected)
        (resolvedDelay S.delay_unexpected dlo) m u ar kw
        (resolvedMaxTries S.max_tries mto) 1 c S _ hmem).2.2.2.1
      have hlast : ((requestLoop world (eo.getD S.expected)
          (resolvedDelay S.delay_unexpected dlo) m u ar kw
          (resolvedMaxTries S.max_tries mto) 1 c
          S).attempts.getLastD defaultAttempt).accepted = true := by
        have hstep := requestLoop_attempts world (eo.getD S.expected)
          (resolvedDelay S.delay_unexpected dlo) m u ar kw
          (resolvedMaxTries S.max_tries mto) 1 c S _ hmem
        obtain ⟨cb, hcb⟩ : ∃ n, ((requestLoop world (eo.getD S.expected)
          (resolvedDelay S.delay_unexpected dlo) m u ar kw
          (resolvedMaxTries S.max_tries mto) 1 c
          S).attempts.getLastD defaultAttempt).counterBefore = n :=
          ⟨_, rfl⟩
        rw [hcb] at hstep
        rw [hstep, requestStep_accepted]
        have hwr : (requestLoop world (eo.getD S.expected)
            (resolvedDelay S.delay_unexpected dlo) m u ar kw
            (resolvedMaxTries S.max_tries mto) 1 c S).resp =
            world cb := by
          rw [i4, hstep, requestStep_resp]
        rw [← hwr]
        rw [request_accepted_def] at hacc
        rw [i5] at hacc
        exact hacc
      rw [request_attempts_def]
      rw [hb, if_pos hlast]
    · intro tag htag
      exact request_info_mem S world c m u ar eo mto dlo kw tag

end Wqb

namespace Wqb

theorem retrySleepDur_some (s : String) (v d : ℚ)
    (hp : pythonFloat s = some v) (hv : 0 ≤ v) :
    retrySleepDur (some s) d = v := by
  simp only [retrySleepDur, hp]
  rw [if_neg (not_lt.mpr hv)]

theorem retrySleepDur_fallback (ra : Option String) (d : ℚ)
    (h : ra = none ∨ ∃ s, ra = some s ∧ floatValueError s = true) :
    retrySleepDur ra d = d := by
  rcases h with h | ⟨s, hs, hp⟩
  · rw [h]
    rfl
  · rw [hs]
    have h1 : (pythonFloat s).isNone = true := by
      simp only [floatValueError, Bool.and_eq_true] at hp
      exact hp.1.1
    rw [Option.isNone_iff_eq_none] at h1
    simp only [retrySleepDur, h1]

/-- Witness for C8: predicate accepts 200, the world answers 500, 500,
then 200; with maxTries 5 the loop stops at attempt 3, the transport
ran exactly 3 times and no warning was emitted. -/
theorem claim_C8_witness :
    (AutoAuthSession.request cS wOK3 0 "GET" "https://example.com/x" []
      none (some 5) none (some "t") []).accepted = true ∧
    (AutoAuthSession.request cS wOK3 0 "GET" "https://example.com/x" []
      none (some 5) none (some "t") []).tries = 3 ∧
    countTransport (AutoAuthSession.request cS wOK3 0 "GET"
      "https://example.com/x" [] none (some 5) none (some "t")
      []).trace = 3 ∧
    countWarn (AutoAuthSession.request cS wOK3 0 "GET"
      "https://example.com/x" [] none (some 5) none (some "t")
      []).trace = 0 := by
  have h := (claim_C8_stop_on_success cS wOK3 0 0 "GET"
    "https://example.com/x" none none [] none (some 5) none (some "t")
    []).2 rfl
  refine ⟨rfl, rfl, ?_, h.2.2.2.1⟩
  rw [h.2.2.1]
  rfl

/-- C4: in `request`, whenever an attempt's response has status 401 and
the success predicate rejects it, that attempt runs exactly one nested
authentication cycle — `auth_request` invoked with no overrides, i.e.
entirely on the authentication session defaults — followed by a sleep
of the resolved fixed delay, before the loop moves on; attempts that
are accepted or whose status is not 401 run no authentication cycle. -/
theorem claim_C4_reauth_on_401 (S : SessionState) (world : ℕ → Response)
    (c : ℕ) (m u : String) (ar : List String)
    (eo : Option (Response → Bool)) (mto : Option Int) (dlo : Option ℚ)
    (lo : Option String) (kw : Kwargs) :
    (∀ a ∈ (AutoAuthSession.request S world c m u ar eo mto dlo lo
        kw).attempts,
      a.accepted = false → a.resp.status_code = some 401 →
        a.block = [Event.transport m u ar kw a.resp,
          Event.auth (AutoAuthSession.auth_request S world
            (a.counterBefore + 1) none none [] none none none none
            []).trace,
          Event.sleep (resolvedDelay S.delay_unexpected dlo)] ∧
        countAuth a.block = 1) ∧
    (∀ a ∈ (AutoAuthSession.request S world c m u ar eo mto dlo lo
        kw).attempts,
      (a.accepted = true ∨ a.resp.status_code ≠ some 401) →
        countAuth a.block = 0) := by
  constructor
  · intro a ha hrej h401
    rw [request_attempts_def] at ha
    have hstep := requestLoop_attempts world (eo.getD S.expected)
      (resolvedDelay S.delay_unexpected dlo) m u ar kw
      (resolvedMaxTries S.max_tries mto) 1 c S a ha
    obtain ⟨cb, hcb⟩ : ∃ n, a.counterBefore = n := ⟨_, rfl⟩
    rw [hcb] at hstep
    have he : (eo.getD S.expected) (world cb) = false := by
      rw [hstep, requestStep_accepted] at hrej
      exact hrej
    have h4 : (world cb).status_code = some 401 := by
      rw [hstep, requestStep_resp] at h401
      exact h401
    have hb := requestStep_of_401 world (eo.getD S.expected)
      (resolvedDelay S.delay_unexpected dlo) m u ar kw S cb he h4
    rw [hcb, hstep, hb]
    exact ⟨rfl, rfl⟩
  · intro a ha hcond
    rw [request_attempts_def] at ha
    have hstep := requestLoop_attempts world (eo.getD S.expected)
      (resolvedDelay S.delay_unexpected dlo) m u ar kw
      (resolvedMaxTries S.max_tries mto) 1 c S a ha
    obtain ⟨cb, hcb⟩ : ∃ n, a.counterBefore = n := ⟨_, rfl⟩
    rw [hcb] at hstep
    by_cases hacc : (eo.getD S.expected) (world cb) = true
    · rw [hstep, requestStep_of_accepted world (eo.getD S.expected)
        (resolvedDelay S.delay_unexpected dlo) m u ar kw S cb hacc]
      rfl
    · simp only [Bool.not_eq_true] at hacc
      have h4 : (world cb).status_code ≠ some 401 := by
        rcases hcond with hc | hc
        · rw [hstep, requestStep_accepted] at hc
          exact absurd hc (by simp [hacc])
        · rw [hstep, requestStep_resp] at hc
          exact hc
      by_cases h9 : (world cb).status_code = some 429
      · rw [hstep, requestStep_of_429 world (eo.getD S.expected)
          (resolvedDelay S.delay_unexpected dlo) m u ar kw S cb hacc h9]
        rfl
      · rw [hstep, requestStep_of_other world (eo.getD S.expected)
          (resolvedDelay S.delay_unexpected dlo) m u ar kw S cb hacc h4
          h9]
        rfl

/-- Witness for C4 at a concrete input: a one-try `request` whose only
response is a rejected 401; its attempt runs exactly one nested
authentication cycle. -/
theorem claim_C4_witness :
    a401 ∈ (AutoAuthSession.request cS w401 0 "GET"
      "https://example.com/x" [] none (some 1) none none []).attempts ∧
    a401.accepted = false ∧ a401.resp.status_code = some 401 ∧
    countAuth a401.block = 1 := by
  have hmem : a401 ∈ (AutoAuthSession.request cS w401 0 "GET"
      "https://example.com/x" [] none (some 1) none none []).attempts :=
    by
    rw [show (AutoAuthSession.request cS w401 0 "GET"
      "https://example.com/x" [] none (some 1) none none []).attempts =
      [a401] from rfl]
    exact List.mem_singleton.mpr rfl
  have h := (claim_C4_reauth_on_401 cS w401 0 "GET"
    "https://example.com/x" [] none (some 1) none none []).1 a401 hmem
    rfl rfl
  exact ⟨hmem, rfl, rfl, h.2⟩

end Wqb

namespace Wqb

/-- C5: in both retry loops, when a rejected attempt's response has
status 429 and its Retry-After header is present and parseable as a
non-negative number v, the attempt's sleep lasts v seconds rather than
the resolved fixed delay. -/
theorem claim_C5_retry_after_honoured (S : SessionState)
    (world : ℕ → Response) (c c' : ℕ) (m u : String)
    (mo uo : Option String) (ar : List String)
    (eo : Option (Response → Bool)) (mto : Option Int) (dlo : Option ℚ)
    (lo : Option String) (kw : Kwargs) :
    (∀ a ∈ (AutoAuthSession.auth_request S world c' mo uo ar eo mto dlo
        lo kw).attempts, ∀ s v,
      a.accepted = false → a.resp.status_code = some 429 →
      headersGet a.resp.headers RETRY_AFTER = some s →
      pythonFloat s = some v → 0 ≤ v →
      a.block = [Event.transport (mo.getD S.method) (uo.getD S.url) ar
        (dictMerge S.kwargs kw) a.resp, Event.sleep v]) ∧
    (∀ a ∈ (AutoAuthSession.request S world c m u ar eo mto dlo lo
        kw).attempts, ∀ s v,
      a.accepted = false → a.resp.status_code = some 429 →
      headersGet a.resp.headers RETRY_AFTER = some s →
      pythonFloat s = some v → 0 ≤ v →
      a.block = [Event.transport m u ar kw a.resp, Event.sleep v]) := by
  constructor
  · intro a ha s v hrej h429 hhdr hp hv
    rw [auth_request_attempts_def] at ha
    obtain ⟨h1, h2, h3⟩ := authLoop_attempts world
      (eo.getD S.auth_expected) (resolvedDelay S.auth_delay_unexpected
      dlo) (mo.getD S.method) (uo.getD S.url) ar (dictMerge S.kwargs kw)
      S (resolvedMaxTries S.auth_max_tries mto) 1 c' a ha
    rw [h3, if_neg (by simp [hrej])]
    have hdur : authSleepDur a.resp
        (resolvedDelay S.auth_delay_unexpected dlo) = v := by
      unfold authSleepDur
      rw [if_pos h429, hhdr]
      exact retrySleepDur_some s v _ hp hv
    rw [hdur]
  · intro a ha s v hrej h429 hhdr hp hv
    rw [request_attempts_def] at ha
    have hstep := requestLoop_attempts world (eo.getD S.expected)
      (resolvedDelay S.delay_unexpected dlo) m u ar kw
      (resolvedMaxTries S.max_tries mto) 1 c S a ha
    obtain ⟨cb, hcb⟩ : ∃ n, a.counterBefore = n := ⟨_, rfl⟩
    rw [hcb] at hstep
    have he : (eo.getD S.expected) (world cb) = false := by
      rw [hstep, requestStep_accepted] at hrej
      exact hrej
    have h9 : (world cb).status_code = some 429 := by
      rw [hstep, requestStep_resp] at h429
      exact h429
    have hhdr' : headersGet (world cb).headers RETRY_AFTER = some s := by
      rw [hstep, requestStep_resp] at hhdr
      exact hhdr
    have hb := requestStep_of_429 world (eo.getD S.expected)
      (resolvedDelay S.delay_unexpected dlo) m u ar kw S cb he h9
    rw [hstep, hb]
    have hdur : retrySleepDur (headersGet (world cb).headers RETRY_AFTER)
        (resolvedDelay S.delay_unexpected dlo) = v := by
      rw [hhdr']
      exact retrySleepDur_some s v _ hp hv
    rw [hdur]

/-- Witness for C5 at a concrete input: a one-try `request` whose only
response is a rejected 429 carrying `Retry-After: 5` (lowercase header
key); the attempt sleeps 5 seconds, not the fixed delay 2. -/
theorem claim_C5_witness :
    a429five ∈ (AutoAuthSession.request cS w429five 0 "GET"
      "https://example.com/x" [] none (some 1) none none []).attempts ∧
    a429five.accepted = false ∧
    a429five.resp.status_code = some 429 ∧
    headersGet a429five.resp.headers RETRY_AFTER = some "5" ∧
    pythonFloat "5" = some 5 ∧ (0 : ℚ) ≤ 5 ∧
    a429five.block = [Event.transport "GET" "https://example.com/x" []
      [] a429five.resp, Event.sleep 5] := by
  have hmem : a429five ∈ (AutoAuthSession.request cS w429five 0 "GET"
      "https://example.com/x" [] none (some 1) none none []).attempts :=
    by
    rw [show (AutoAuthSession.request cS w429five 0 "GET"
      "https://example.com/x" [] none (some 1) none none []).attempts =
      [a429five] by with_unfolding_all rfl]
    exact List.mem_singleton.mpr rfl
  have h := (claim_C5_retry_after_honoured cS w429five 0 0 "GET"
    "https://example.com/x" none none [] none (some 1) none none []).2
    a429five hmem "5" 5 rfl rfl (by with_unfolding_all rfl)
    (by with_unfolding_all rfl) (by norm_num)
  exact ⟨hmem, rfl, rfl, by with_unfolding_all rfl,
    by with_unfolding_all rfl, by norm_num, h⟩

/-- C6: in both retry loops, when a rejected attempt's response has
status 429 and its Retry-After header is absent, or is a string on
which Python's float raises ValueError (neither a finite float literal
nor an inf/infinity/nan spelling — e.g. "soon"), the parse failure is
absorbed by the except handler (the sleep model stays a total
function) and the attempt's sleep falls back to the resolved fixed
delay. -/
theorem claim_C6_retry_after_fallback (S : SessionState)
    (world : ℕ → Response) (c c' : ℕ) (m u : String)
    (mo uo : Option String) (ar : List String)
    (eo : Option (Response → Bool)) (mto : Option Int) (dlo : Option ℚ)
    (lo : Option String) (kw : Kwargs) :
    (∀ a ∈ (AutoAuthSession.auth_request S world c' mo uo ar eo mto dlo
        lo kw).attempts,
      a.accepted = false → a.resp.status_code = some 429 →
      (headersGet a.resp.headers RETRY_AFTER = none ∨
        ∃ s, headersGet a.resp.headers RETRY_AFTER = some s ∧
          floatValueError s = true) →
      a.block = [Event.transport (mo.getD S.method) (uo.getD S.url) ar
        (dictMerge S.kwargs kw) a.resp,
        Event.sleep (resolvedDelay S.auth_delay_unexpected dlo)]) ∧
    (∀ a ∈ (AutoAuthSession.request S world c m u ar eo mto dlo lo
        kw).attempts,
      a.accepted = false → a.resp.status_code = some 429 →
      (headersGet a.resp.headers RETRY_AFTER = none ∨
        ∃ s, headersGet a.resp.headers RETRY_AFTER = some s ∧
          floatValueError s = true) →
      a.block = [Event.transport m u ar kw a.resp,
        Event.sleep (resolvedDelay S.delay_unexpected dlo)]) := by
  constructor
  · intro a ha hrej h429 hbad
    rw [auth_request_attempts_def] at ha
    obtain ⟨h1, h2, h3⟩ := authLoop_attempts world
      (eo.getD S.auth_expected) (resolvedDelay S.auth_delay_unexpected
      dlo) (mo.getD S.method) (uo.getD S.url) ar (dictMerge S.kwargs kw)
      S (resolvedMaxTries S.auth_max_tries mto) 1 c' a ha
    rw [h3, if_neg (by simp [hrej])]
    have hdur : authSleepDur a.resp
        (resolvedDelay S.auth_delay_unexpected dlo) =
        resolvedDelay S.auth_delay_unexpected dlo := by
      unfold authSleepDur
      rw [if_pos h429]
      exact retrySleepDur_fallback _ _ hbad
    rw [hdur]
  · intro a ha hrej h429 hbad
    rw [request_attempts_def] at ha
    have hstep := requestLoop_attempts world (eo.getD S.expected)
      (resolvedDelay S.delay_unexpected dlo) m u ar kw
      (resolvedMaxTries S.max_tries mto) 1 c S a ha
    obtain ⟨cb, hcb⟩ : ∃ n, a.counterBefore = n := ⟨_, rfl⟩
    rw [hcb] at hstep
    have he : (eo.getD S.expected) (world cb) = false := by
      rw [hstep, requestStep_accepted] at hrej
      exact hrej
    have h9 : (world cb).status_code = some 429 := by
      rw [hstep, requestStep_resp] at h429
      exact h429
    have hbad' : headersGet (world cb).headers RETRY_AFTER = none ∨
        ∃ s, headersGet (world cb).headers RETRY_AFTER = some s ∧
          floatValueError s = true := by
      rw [hstep, requestStep_resp] at hbad
      exact hbad
    have hb := requestStep_of_429 world (eo.getD S.expected)
      (resolvedDelay S.delay_unexpected dlo) m u ar kw S cb he h9
    rw [hstep, hb]
    rw [retrySleepDur_fallback _ _ hbad']

/-- Witness for C6 at a concrete input: a one-try `request` whose only
response is a rejected 429 carrying `Retry-After: soon`; the attempt
sleeps the fixed delay 2. -/
theorem claim_C6_witness :
    a429soon ∈ (AutoAuthSession.request cS w429soon 0 "GET"
      "https://example.com/x" [] none (some 1) none none []).attempts ∧
    a429soon.accepted = false ∧
    a429soon.resp.status_code = some 429 ∧
    headersGet a429soon.resp.headers RETRY_AFTER = some "soon" ∧
    floatValueError "soon" = true ∧
    a429soon.block = [Event.transport "GET" "https://example.com/x" []
      [] a429soon.resp,
      Event.sleep (resolvedDelay cS.delay_unexpected none)] := by
  have hmem : a429soon ∈ (AutoAuthSession.request cS w429soon 0 "GET"
      "https://example.com/x" [] none (some 1) none none []).attempts :=
    by
    rw [show (AutoAuthSession.request cS w429soon 0 "GET"
      "https://example.com/x" [] none (some 1) none none []).attempts =
      [a429soon] by with_unfolding_all rfl]
    exact List.mem_singleton.mpr rfl
  have h := (claim_C6_retry_after_fallback cS w429soon 0 0 "GET"
    "https://example.com/x" none none [] none (some 1) none none []).2
    a429soon hmem rfl rfl
    (Or.inr ⟨"soon", by with_unfolding_all rfl, by with_unfolding_all
      rfl⟩)
  exact ⟨hmem, rfl, rfl, by with_unfolding_all rfl,
    by with_unfolding_all rfl, h⟩

end Wqb

namespace Wqb

theorem requestStep_counter_not401 (world : ℕ → Response)
    (e : Response → Bool) (d : ℚ) (m u : String) (ar : List String)
    (kw : Kwargs) (S : SessionState) (c : ℕ)
    (h4 : (world c).status_code ≠ some 401) :
    (requestStep world e d m u ar kw S c).2.1 = c + 1 := by
  by_cases hacc : e (world c) = true
  · simp [requestStep, hacc]
  · simp only [Bool.not_eq_true] at hacc
    simp only [requestStep, hacc, Bool.false_eq_true, if_false]
    rw [if_neg h4]
    split <;> rfl

/-- When no response is a 401, the transport counter advances by one
per attempt, so the last attempt of the `request` loop starts at the
initial counter plus the number of earlier attempts. -/
theorem requestLoop_last_counter (world : ℕ → Response)
    (e : Response → Bool) (d : ℚ) (m u : String) (ar : List String)
    (kw : Kwargs) (h4 : ∀ n, (world n).status_code ≠ some 401) :
    ∀ fuel tryNo c S, 1 ≤ fuel →
      ((requestLoop world e d m u ar kw fuel tryNo c
        S).attempts.getLastD defaultAttempt).counterBefore + 1 =
      c + (requestLoop world e d m u ar kw fuel tryNo c
        S).attempts.length := by
  intro fuel
  induction fuel with
  | zero => intro _ _ _ h; omega
  | succ n ih =>
    intro tryNo c S _
    rw [requestLoop]
    by_cases hacc : (requestStep world e d m u ar kw S c).1.accepted =
      true
    · simp only [hacc, if_true]
      rw [List.getLastD_cons, List.getLastD_nil,
        requestStep_counterBefore]
      simp
    · have h' : (requestStep world e d m u ar kw S c).1.accepted =
          false := by simpa using hacc
      simp only [h', Bool.false_eq_true, if_false]
      by_cases hn : n = 0
      · simp only [hn, if_true]
        rw [List.getLastD_cons, List.getLastD_nil,
          requestStep_counterBefore]
        simp
      · simp only [hn, if_false]
        have hc2 : (requestStep world e d m u ar kw S c).2.1 = c + 1 :=
          requestStep_counter_not401 world e d m u ar kw S c (h4 c)
        rw [hc2]
        have hrec := ih (tryNo + 1) (c + 1)
          (requestStep world e d m u ar kw S c).2.2 (by omega)
        obtain ⟨i1, i2, i3, i4, i5, i6, i7⟩ := requestLoop_inv world e d
          m u ar kw n (tryNo + 1) (c + 1)
          (requestStep world e d m u ar kw S c).2.2 _ rfl (by omega)
        have hne : (requestLoop world e d m u ar kw n (tryNo + 1)
            (c + 1)
            (requestStep world e d m u ar kw S c).2.2).attempts ≠ [] :=
          by
          intro hcn
          rw [hcn] at i2
          simp at i2
        obtain ⟨b, bs, hbs⟩ := List.exists_cons_of_ne_nil hne
        rw [hbs, List.getLastD_cons, List.getLastD_cons]
        rw [hbs, List.getLastD_cons] at hrec
        simp only [List.length_cons] at hrec ⊢
        omega

/-- C3 as amended: for every `auth_request` call, the transport is
invoked at least once and at most the resolved maxTries times; for
every `request` call the same bound holds for the transport calls the
call's own retry loop issues — nested authentication cycles triggered
by 401 responses issue additional transport invocations of their own,
beyond maxTries. -/
theorem claim_C3_amended (S : SessionState) (world : ℕ → Response)
    (c c' : ℕ) (m u : String) (mo uo : Option String) (ar : List String)
    (eo : Option (Response → Bool)) (mto : Option Int) (dlo : Option ℚ)
    (lo : Option String) (kw : Kwargs) :
    (1 ≤ countTransportAll (AutoAuthSession.auth_request S world c' mo
        uo ar eo mto dlo lo kw).trace ∧
      countTransportAll (AutoAuthSession.auth_request S world c' mo uo
        ar eo mto dlo lo kw).trace ≤
        resolvedMaxTries S.auth_max_tries mto) ∧
    (1 ≤ countTransport (AutoAuthSession.request S world c m u ar eo mto
        dlo lo kw).trace ∧
      countTransport (AutoAuthSession.request S world c m u ar eo mto
        dlo lo kw).trace ≤ resolvedMaxTries S.max_tries mto) := by
  constructor
  · obtain ⟨i1, i2, i3, i4, i5, i6, i7⟩ := authLoop_inv world
      (eo.getD S.auth_expected) (resolvedDelay S.auth_delay_unexpected
      dlo) (mo.getD S.method) (uo.getD S.url) ar (dictMerge S.kwargs kw)
      S (resolvedMaxTries S.auth_max_tries mto) 1 c' _ rfl
      (resolvedMaxTries_pos _ _)
    rw [(auth_request_counts S world c' mo uo ar eo mto dlo lo kw).1,
      auth_request_attempts_def]
    exact ⟨i2, i1⟩
  · obtain ⟨i1, i2, i3, i4, i5, i6, i7⟩ := requestLoop_inv world
      (eo.getD S.expected) (resolvedDelay S.delay_unexpected dlo) m u ar
      kw (resolvedMaxTries S.max_tries mto) 1 c S _ rfl
      (resolvedMaxTries_pos _ _)
    rw [(request_counts S world c m u ar eo mto dlo lo kw).1,
      request_attempts_def]
    exact ⟨i2, i1⟩

/-- C3 as stated is false for `request`: at a concrete one-try call
whose only response is a rejected 401, the nested authentication cycle
(two more transport calls on the authentication defaults) brings the
total number of transport invocations during the call to 3, exceeding
the resolved maxTries of 1. -/
theorem claim_C3_counterexample :
    resolvedMaxTries cS.max_tries (some 1) = 1 ∧
    countTransportAll (AutoAuthSession.request cS w401 0 "GET"
      "https://example.com/x" [] none (some 1) none none []).trace =
      3 ∧
    ¬ (countTransportAll (AutoAuthSession.request cS w401 0 "GET"
      "https://example.com/x" [] none (some 1) none none []).trace ≤
      resolvedMaxTries cS.max_tries (some 1)) := by
  have ht : (AutoAuthSession.request cS w401 0 "GET"
      "https://example.com/x" [] none (some 1) none none []).trace =
      reqTrace401 := by
    with_unfolding_all rfl
  have hcount : countTransportAll reqTrace401 = 3 := by
    simp [reqTrace401, authTrace401, countTransportAll]
  refine ⟨rfl, ?_, ?_⟩
  · rw [ht, hcount]
  · rw [ht, hcount]
    decide

end Wqb

namespace Wqb

/-- C1 amended: with resolved maxTries 3, a predicate rejecting every
response and no 401/429 statuses, `request` calls the transport exactly
3 times, sleeps the resolved fixed delay exactly three times — once
after every attempt, the third included — emits exactly one warning,
and returns the last (third) response. -/
theorem claim_C1_amended (S : SessionState) (world : ℕ → Response)
    (c : ℕ) (m u : String) (ar : List String)
    (eo : Option (Response → Bool)) (mto : Option Int) (dlo : Option ℚ)
    (lo : Option String) (kw : Kwargs)
    (hmt : resolvedMaxTries S.max_tries mto = 3)
    (hrej : ∀ n, (eo.getD S.expected) (world n) = false)
    (h401 : ∀ n, (world n).status_code ≠ some 401)
    (h429 : ∀ n, (world n).status_code ≠ some 429) :
    countTransportAll (AutoAuthSession.request S world c m u ar eo mto
      dlo lo kw).trace = 3 ∧
    countSleep (AutoAuthSession.request S world c m u ar eo mto dlo lo
      kw).trace = 3 ∧
    (∀ ev ∈ (AutoAuthSession.request S world c m u ar eo mto dlo lo
        kw).trace, Event.isSleep ev = true →
      ev = Event.sleep (resolvedDelay S.delay_unexpected dlo)) ∧
    countWarn (AutoAuthSession.request S world c m u ar eo mto dlo lo
      kw).trace = 1 ∧
    (AutoAuthSession.request S world c m u ar eo mto dlo lo kw).tries
      = 3 ∧
    (AutoAuthSession.request S world c m u ar eo mto dlo lo kw).resp =
      world (c + 2) := by
  obtain ⟨i1, i2, i3, i4, i5, i6, i7⟩ := requestLoop_inv world
    (eo.getD S.expected) (resolvedDelay S.delay_unexpected dlo) m u ar
    kw (resolvedMaxTries S.max_tries mto) 1 c S _ rfl
    (resolvedMaxTries_pos _ _)
  have hattr := requestLoop_attempts world (eo.getD S.expected)
    (resolvedDelay S.delay_unexpected dlo) m u ar kw
    (resolvedMaxTries S.max_tries mto) 1 c S
  have hrejall : ∀ a ∈ (requestLoop world (eo.getD S.expected)
      (resolvedDelay S.delay_unexpected dlo) m u ar kw
      (resolvedMaxTries S.max_tries mto) 1 c S).attempts,
      a.accepted = false := by
    intro a ha
    have hstep := hattr a ha
    obtain ⟨cb, hcb⟩ : ∃ n, a.counterBefore = n := ⟨_, rfl⟩
    rw [hcb] at hstep
    rw [hstep, requestStep_accepted]
    exact hrej cb
  have hstatus : ∀ a ∈ (requestLoop world (eo.getD S.expected)
      (resolvedDelay S.delay_unexpected dlo) m u ar kw
      (resolvedMaxTries S.max_tries mto) 1 c S).attempts,
      a.resp.status_code ≠ some 401 := by
    intro a ha
    have hstep := hattr a ha
    obtain ⟨cb, hcb⟩ : ∃ n, a.counterBefore = n := ⟨_, rfl⟩
    rw [hcb] at hstep
    rw [hstep, requestStep_resp]
    exact h401 cb
  have hne : (requestLoop world (eo.getD S.expected)
      (resolvedDelay S.delay_unexpected dlo) m u ar kw
      (resolvedMaxTries S.max_tries mto) 1 c S).attempts ≠ [] := by
    intro hc
    rw [hc] at i2
    simp at i2
  have hfacc : (requestLoop world (eo.getD S.expected)
      (resolvedDelay S.delay_unexpected dlo) m u ar kw
      (resolvedMaxTries S.max_tries mto) 1 c S).accepted = false := by
    rw [i5, i4]
    have hmem := getLastD_mem _ hne defaultAttempt
    have hstep := hattr _ hmem
    obtain ⟨cb, hcb⟩ : ∃ n, ((requestLoop world (eo.getD S.expected)
        (resolvedDelay S.delay_unexpected dlo) m u ar kw
        (resolvedMaxTries S.max_tries mto) 1 c
        S).attempts.getLastD defaultAttempt).counterBefore = n :=
      ⟨_, rfl⟩
    rw [hcb] at hstep
    rw [hstep, requestStep_resp]
    exact hrej cb
  have hwacc : (AutoAuthSession.request S world c m u ar eo mto dlo lo
      kw).accepted = false := by
    rw [request_accepted_def]
    exact hfacc
  have hlen : (requestLoop world (eo.getD S.expected)
      (resolvedDelay S.delay_unexpected dlo) m u ar kw
      (resolvedMaxTries S.max_tries mto) 1 c S).attempts.length = 3 :=
    by
    rw [i7 hfacc]
    exact hmt
  have htries : (requestLoop world (eo.getD S.expected)
      (resolvedDelay S.delay_unexpected dlo) m u ar kw
      (resolvedMaxTries S.max_tries mto) 1 c S).tries = 3 := by omega
  have hblocks := requestLoop_block_counts world (eo.getD S.expected)
    (resolvedDelay S.delay_unexpected dlo) m u ar kw
    (resolvedMaxTries S.max_tries mto) 1 c S
  refine ⟨?_, ?_, ?_, ?_, ?_, ?_⟩
  · rw [(request_counts S world c m u ar eo mto dlo lo kw).2.2.2.2,
      request_attempts_def]
    have hone : ∀ a ∈ (requestLoop world (eo.getD S.expected)
        (resolvedDelay S.delay_unexpected dlo) m u ar kw
        (resolvedMaxTries S.max_tries mto) 1 c S).attempts,
        countTransportAll a.block = 1 := by
      intro a ha
      exact ((hblocks a ha).2.2.2.2.1 (hstatus a ha)).1
    have hsum := sum_map_eq_length (fun a => countTransportAll a.block)
      (requestLoop world (eo.getD S.expected)
        (resolvedDelay S.delay_unexpected dlo) m u ar kw
        (resolvedMaxTries S.max_tries mto) 1 c S).attempts hone
    rw [hsum, hlen]
  · rw [(request_counts S world c m u ar eo mto dlo lo kw).2.2.1,
      request_attempts_def]
    have hone : ∀ a ∈ (requestLoop world (eo.getD S.expected)
        (resolvedDelay S.delay_unexpected dlo) m u ar kw
        (resolvedMaxTries S.max_tries mto) 1 c S).attempts,
        countSleep a.block = 1 := by
      intro a ha
      rw [(hblocks a ha).2.2.2.1, if_neg (by simp [hrejall a ha])]
    have hsum := sum_map_eq_length (fun a => countSleep a.block)
      (requestLoop world (eo.getD S.expected)
        (resolvedDelay S.delay_unexpected dlo) m u ar kw
        (resolvedMaxTries S.max_tries mto) 1 c S).attempts hone
    rw [hsum, hlen]
  · intro ev hev hsleep
    rw [request_trace_def] at hev
    rcases List.mem_append.mp hev with hev | hev
    · rcases List.mem_append.mp hev with hev | hev
      · rw [request_attempts_def] at hev
        obtain ⟨bl, hbl, hin⟩ := List.mem_flatten.mp hev
        obtain ⟨a, ha, rfl⟩ := List.mem_map.mp hbl
        have hstep := hattr a ha
        obtain ⟨cb, hcb⟩ : ∃ n, a.counterBefore = n := ⟨_, rfl⟩
        rw [hcb] at hstep
        have hb := requestStep_of_other world (eo.getD S.expected)
          (resolvedDelay S.delay_unexpected dlo) m u ar kw S cb
          (hrej cb) (h401 cb) (h429 cb)
        rw [hstep, hb] at hin
        simp only [List.mem_cons, List.not_mem_nil, or_false] at hin
        rcases hin with rfl | rfl
        · simp [Event.isSleep] at hsleep
        · rfl
      · rw [if_neg (by simp [hwacc])] at hev
        simp only [List.mem_singleton] at hev
        subst hev
        simp [Event.isSleep] at hsleep
    · cases lo with
      | none => simp at hev
      | some tag =>
        simp only [List.mem_singleton] at hev
        subst hev
        simp [Event.isSleep] at hsleep
  · rw [(request_counts S world c m u ar eo mto dlo lo kw).2.1,
      if_neg (by simp [hwacc])]
  · rw [request_tries_def]
    exact htries
  · rw [request_resp_def, i4]
    have hmem := getLastD_mem _ hne defaultAttempt
    have hstep := hattr _ hmem
    obtain ⟨cb, hcb⟩ : ∃ n, ((requestLoop world (eo.getD S.expected)
        (resolvedDelay S.delay_unexpected dlo) m u ar kw
        (resolvedMaxTries S.max_tries mto) 1 c
        S).attempts.getLastD defaultAttempt).counterBefore = n :=
      ⟨_, rfl⟩
    rw [hcb] at hstep
    rw [hstep, requestStep_resp]
    have hc := requestLoop_last_counter world (eo.getD S.expected)
      (resolvedDelay S.delay_unexpected dlo) m u ar kw h401
      (resolvedMaxTries S.max_tries mto) 1 c S
      (resolvedMaxTries_pos _ _)
    rw [hcb, hlen] at hc
    have hcb2 : cb = c + 2 := by omega
    rw [hcb2]

/-- C1 as stated is false in one point: the loop also sleeps after the
third (final) failed attempt, so the fixed delay is slept three times,
not twice.  Concrete run: maxTries 3, predicate rejects everything,
every response is 500 — three transport calls, one warning and the
last response returned as the claim says, but three sleeps. -/
theorem claim_C1_counterexample :
    resolvedMaxTries cS.max_tries (some 3) = 3 ∧
    countSleep (AutoAuthSession.request cS w500 0 "GET"
      "https://example.com/x" [] none (some 3) none none []).trace =
      3 ∧
    countSleep (AutoAuthSession.request cS w500 0 "GET"
      "https://example.com/x" [] none (some 3) none none []).trace ≠
      2 ∧
    countTransport (AutoAuthSession.request cS w500 0 "GET"
      "https://example.com/x" [] none (some 3) none none []).trace =
      3 ∧
    countAuth (AutoAuthSession.request cS w500 0 "GET"
      "https://example.com/x" [] none (some 3) none none []).trace =
      0 ∧
    countWarn (AutoAuthSession.request cS w500 0 "GET"
      "https://example.com/x" [] none (some 3) none none []).trace =
      1 ∧
    (AutoAuthSession.request cS w500 0 "GET" "https://example.com/x" []
      none (some 3) none none []).resp = r500 := by
  have hc : countSleep (AutoAuthSession.request cS w500 0 "GET"
      "https://example.com/x" [] none (some 3) none none []).trace =
      3 := by
    with_unfolding_all rfl
  refine ⟨rfl, hc, ?_, ?_, ?_, ?_, ?_⟩
  · rw [hc]
    decide
  · with_unfolding_all rfl
  · with_unfolding_all rfl
  · with_unfolding_all rfl
  · with_unfolding_all rfl

/-- Witness for the amended C1 at a concrete input: session `cS`,
per-call maxTries 3, a world answering 500 forever. -/
theorem claim_C1_witness :
    resolvedMaxTries cS.max_tries (some 3) = 3 ∧
    countSleep (AutoAuthSession.request cS w500 0 "GET"
      "https://example.com/x" [] none (some 3) none none []).trace =
      3 ∧
    countWarn (AutoAuthSession.request cS w500 0 "GET"
      "https://example.com/x" [] none (some 3) none none []).trace =
      1 ∧
    (AutoAuthSession.request cS w500 0 "GET" "https://example.com/x" []
      none (some 3) none none []).resp = w500 (0 + 2) := by
  have h := claim_C1_amended cS w500 0 "GET" "https://example.com/x" []
    none (some 3) none none [] rfl (fun _ => rfl)
    (by intro n; simp [w500, r500]) (by intro n; simp [w500, r500])
  exact ⟨rfl, h.2.1, h.2.2.2.1, h.2.2.2.2.2⟩

end Wqb
